import Mathlib

/-!
Verification of the sysfs PCI-device / AER subsystem.

This file gives a shallow embedding, in Lean 4, of the Go sources
`sysfs/pci_device.go`, `sysfs/pci_device_aer.go`,
`sysfs/pci_device_rootport_aer.go` and `sysfs/net_class_aer.go`, and settles
the frozen claims C1..C10 about them.

Modelling conventions:
* Machine integers are modelled as `Nat`/`Int`; where Go narrows
  (`uint32(v)`) the reduction `% 2^32` is explicit.
* Fallible Go functions `(T, error)` are modelled as `Except Err T`;
  functions returning a pointer `(*T, error)` that may return `nil, nil`
  are modelled as `Except Err (Option T)`.
* The external "virtual filesystem" collaborator (`os.ReadDir`,
  `util.SysReadFile`, `os.Readlink`, `os.Stat`) is modelled by explicit
  records of functions; a file read outcome is a `FileResult`
  distinguishing not-found from other I/O failures, as the collaborator
  contract requires.
* Strings are processed as `List Char`; the Go standard-library string
  helpers that the source calls (`strings.Split`, `strings.Fields`,
  `strings.TrimSpace`, `strconv.Parse*`, `filepath.Base`/`Dir`) are
  embedded below over `List Char`.  Whitespace is modelled as ASCII
  whitespace (the values handled here are ASCII sysfs contents).
-/

/-! ## String helpers (embedding of the Go standard-library calls used) -/

/-- Embeds `strings.Split(s, sep)` for a one-character separator: splits at
every occurrence of `sep`, keeping empty components. -/
def splitOnChar (sep : Char) : List Char → List (List Char)
  | [] => [[]]
  | c :: cs =>
    if c = sep then [] :: splitOnChar sep cs
    else
      match splitOnChar sep cs with
      | [] => [[c]]
      | h :: t => (c :: h) :: t

/-- ASCII model of `unicode.IsSpace` as used by `strings.Fields` and
`strings.TrimSpace` on sysfs contents. -/
def isSpaceChar (c : Char) : Bool :=
  c = ' ' ∨ c = '\t' ∨ c = '\n' ∨ c = '\x0b' ∨ c = '\x0c' ∨ c = '\r'

/-- Worker for `fieldsChars`: accumulates the current (reversed) field. -/
def fieldsAux : List Char → List Char → List (List Char)
  | [], acc => if acc = [] then [] else [acc.reverse]
  | c :: cs, acc =>
    if isSpaceChar c then
      if acc = [] then fieldsAux cs [] else acc.reverse :: fieldsAux cs []
    else fieldsAux cs (c :: acc)

/-- Embeds `strings.Fields`: splits around runs of whitespace, dropping
empty fields. -/
def fieldsChars (l : List Char) : List (List Char) :=
  fieldsAux l []

/-- Embeds `strings.TrimSpace` (ASCII whitespace model). -/
def trimSpaceChars (l : List Char) : List Char :=
  ((l.dropWhile isSpaceChar).reverse.dropWhile isSpaceChar).reverse

/-- `startsWithChars p l` is true iff `p` is an initial segment of `l`;
embeds `strings.HasPrefix`. -/
def startsWithChars : List Char → List Char → Bool
  | [], _ => true
  | _ :: _, [] => false
  | p :: ps, c :: cs => p = c && startsWithChars ps cs

/-- Embeds `strings.SplitAfterN(s, " ", 2)`: at most two pieces, the first
piece keeping its trailing space. -/
def splitAfter2Space : List Char → List Char → List (List Char)
  | acc, [] => [acc.reverse]
  | acc, c :: cs =>
    if c = ' ' then [(c :: acc).reverse, cs] else splitAfter2Space (c :: acc) cs

/-! ## Numeric parsing (embedding of `strconv`)

`strconv` belongs to the Go standard library (an external collaborator of
this repository); the fragment exercised by the source is embedded here.
Underscore digit separators (Go accepts them for base 0 only) are not
modelled; none of the theorems below touch them. -/

/-- Digit value of a character, as `strconv` computes it (`0-9`, `a-z`,
`A-Z`). -/
def goDigitVal (c : Char) : Option Nat :=
  if '0' ≤ c ∧ c ≤ '9' then some (c.toNat - 48)
  else if 'a' ≤ c ∧ c ≤ 'z' then some (c.toNat - 87)
  else if 'A' ≤ c ∧ c ≤ 'Z' then some (c.toNat - 55)
  else none

/-- The digit-consuming loop of `strconv.ParseUint`: every character must
be a digit of the given base. -/
def parseUintDigits (base : Nat) : Nat → List Char → Option Nat
  | a, [] => some a
  | a, c :: cs =>
    match goDigitVal c with
    | none => none
    | some v => if v < base then parseUintDigits base (base * a + v) cs else none

/-- Embeds `strconv.ParseUint(s, base, bitSize)` for an explicit base
(no sign, no base prefix): `maxVal = 2^bitSize - 1`; out-of-range values
are an error, as in Go. -/
def parseUintBase (base maxVal : Nat) (l : List Char) : Option Nat :=
  if l = [] then none
  else
    match parseUintDigits base 0 l with
    | none => none
    | some v => if v ≤ maxVal then some v else none

/-- Embeds `strconv.ParseInt(s, base, bitSize)` for an explicit base:
optional sign, then `ParseUint` of the rest, then the signed range check
against `2^(bitSize-1)`. -/
def parseIntBase (base bitSize : Nat) (l : List Char) : Option Int :=
  match l with
  | [] => none
  | c :: cs =>
    let neg := c = '-'
    let digits := if c = '+' ∨ c = '-' then cs else l
    match parseUintBase base (2 ^ bitSize - 1) digits with
    | none => none
    | some un =>
      if ¬neg ∧ un ≥ 2 ^ (bitSize - 1) then none
      else if neg ∧ un > 2 ^ (bitSize - 1) then none
      else some (if neg then -(un : Int) else (un : Int))

/-- Base selection of `strconv.ParseUint` with base 0: `0x`/`0b`/`0o`
prefixes (requiring a nonempty remainder), a bare leading `0` meaning
octal, decimal otherwise.  A lone `"0"` parses to `0`, as in Go. -/
def parseUintBase0Core : List Char → Option Nat
  | [] => none
  | ['0'] => some 0
  | '0' :: c :: rest =>
    if (c = 'b' ∨ c = 'B') ∧ rest ≠ [] then parseUintDigits 2 0 rest
    else if (c = 'o' ∨ c = 'O') ∧ rest ≠ [] then parseUintDigits 8 0 rest
    else if (c = 'x' ∨ c = 'X') ∧ rest ≠ [] then parseUintDigits 16 0 rest
    else parseUintDigits 8 0 (c :: rest)
  | l => parseUintDigits 10 0 l

/-- Embeds `strconv.ParseInt(s, 0, bitSize)`: sign, base detection by
prefix, unsigned parse, signed range check. -/
def parseIntBase0 (bitSize : Nat) (l : List Char) : Option Int :=
  match l with
  | [] => none
  | c :: cs =>
    let neg := c = '-'
    let digits := if c = '+' ∨ c = '-' then cs else l
    match parseUintBase0Core digits with
    | none => none
    | some un =>
      if un > 2 ^ bitSize - 1 then none
      else if ¬neg ∧ un ≥ 2 ^ (bitSize - 1) then none
      else if neg ∧ un > 2 ^ (bitSize - 1) then none
      else some (if neg then -(un : Int) else (un : Int))

/-- Embeds the decimal fragment of `strconv.ParseFloat`:
`[sign] digits [. digits] [(e|E) [sign] digits]` with at least one mantissa
digit, valued as an exact rational.  Binary64 rounding and the
`Inf`/`NaN`/hex-float forms are not modelled; every concrete value proved
about below (`8.0`) is exactly representable, where the model and
`float64` agree. -/
def parseFloatQ (l : List Char) : Option ℚ :=
  match l with
  | [] => none
  | c :: cs =>
    let neg := c = '-'
    let body := if c = '+' ∨ c = '-' then cs else l
    let mantExp := splitOnChar 'e' body
    let mantExp2 :=
      if mantExp.length = 1 then splitOnChar 'E' body else mantExp
    match mantExp2 with
    | [mant] =>
      (parseMantissa mant).map fun mf =>
        let q := mkRat mf.1 (10 ^ mf.2)
        if neg then -q else q
    | [mant, ex] =>
      match parseMantissa mant, parseExp ex with
      | some mf, some e =>
        let q :=
          if e ≥ 0 then mkRat (mf.1 * 10 ^ e.toNat) (10 ^ mf.2)
          else mkRat mf.1 (10 ^ mf.2 * 10 ^ (-e).toNat)
        some (if neg then -q else q)
      | _, _ => none
    | _ => none
where
  /-- `digits [. digits]` with at least one digit, as an exact numerator
  and fractional-digit count (the value is `numerator / 10 ^ count`). -/
  parseMantissa (l : List Char) : Option (Int × Nat) :=
    match splitOnChar '.' l with
    | [ip] =>
      if ip ≠ [] then (parseUintDigits 10 0 ip).map fun n => ((n : Int), 0)
      else none
    | [ip, fp] =>
      if ip ++ fp ≠ [] then
        (parseUintDigits 10 0 (ip ++ fp)).map fun n => ((n : Int), fp.length)
      else none
    | _ => none
  /-- `[sign] digits`, nonempty. -/
  parseExp (l : List Char) : Option Int :=
    match l with
    | [] => none
    | c :: cs =>
      let neg := c = '-'
      let digits := if c = '+' ∨ c = '-' then cs else l
      if digits = [] then none
      else (parseUintDigits 10 0 digits).map fun n =>
        if neg then -(n : Int) else (n : Int)

/-! ## Hexadecimal formatting (embedding of `fmt.Sprintf` `%x` verbs) -/

/-- The lowercase hex digit table used by `fmt` (`"0123456789abcdef"`). -/
def hexChar (d : Nat) : Char :=
  if d < 10 then Char.ofNat (48 + d) else Char.ofNat (87 + d)

/-- Hex digits of `n`, least significant first (empty for `0`). -/
def hexDigitsRev : Nat → List Char
  | 0 => []
  | n + 1 => hexChar ((n + 1) % 16) :: hexDigitsRev ((n + 1) / 16)
decreasing_by exact Nat.div_lt_self (Nat.succ_pos n) (by norm_num)

/-- `%x` of a natural number: most significant digit first, `"0"` for 0. -/
def hexRender (n : Nat) : List Char :=
  if n = 0 then ['0'] else (hexDigitsRev n).reverse

/-- `%x` of a Go `int`: a `-` sign followed by the hex digits of the
absolute value when negative. -/
def intHexRender (i : Int) : List Char :=
  if i < 0 then '-' :: hexRender i.natAbs else hexRender i.toNat

/-- Zero padding of `fmt`'s `%0Nx`: zeros are inserted after the sign, and
the value is never truncated. -/
def zeroPad (w : Nat) (l : List Char) : List Char :=
  if l.head? = some '-' then
    '-' :: (List.replicate (w - 1 - l.tail.length) '0' ++ l.tail)
  else List.replicate (w - l.length) '0' ++ l

/-! ## LocationCodec (`sysfs/pci_device.go`) -/

/-- `PciDeviceLocation` from `pci_device.go`: the Segment:Bus:Device.Function
address.  The Go fields have type `int`, modelled as `Int`. -/
structure PciDeviceLocation where
  Segment : Int
  Bus : Int
  Device : Int
  Function : Int
deriving DecidableEq, Repr

/-- Embeds `PciDeviceLocation.String()`:
`fmt.Sprintf("%04x:%02x:%02x:%x", ...)` — note the colon (not dot) before
the function component. -/
def PciDeviceLocation.stringRepr (pdl : PciDeviceLocation) : List Char :=
  zeroPad 4 (intHexRender pdl.Segment) ++ ':' ::
  (zeroPad 2 (intHexRender pdl.Bus) ++ ':' ::
   (zeroPad 2 (intHexRender pdl.Device) ++ ':' :: intHexRender pdl.Function))

/-- Embeds the directory-name rendering
`fmt.Sprintf("%04x:%02x:%02x.%x", ...)` used by `PciDevice.AerCounters`
(`pci_device_aer.go`) — dot before the function component, as in sysfs
directory names. -/
def PciDeviceLocation.dirName (pdl : PciDeviceLocation) : List Char :=
  zeroPad 4 (intHexRender pdl.Segment) ++ ':' ::
  (zeroPad 2 (intHexRender pdl.Bus) ++ ':' ::
   (zeroPad 2 (intHexRender pdl.Device) ++ '.' :: intHexRender pdl.Function))

/-- Embeds `parsePciDeviceLocation` (`pci_device.go`): split on `:`
(exactly 3 components required), re-split the third component on `.`
(exactly 4 components required overall), then parse each component with
`strconv.ParseInt(_, 16, 32)`.  The Go error values are collapsed to
`none`. -/
def parsePciDeviceLocation (loc : List Char) : Option PciDeviceLocation :=
  match splitOnChar ':' loc with
  | [l0, l1, l2] =>
    match [l0, l1] ++ splitOnChar '.' l2 with
    | [a, b, c, d] => do
      let seg ← parseIntBase 16 32 a
      let bus ← parseIntBase 16 32 b
      let dev ← parseIntBase 16 32 c
      let fn ← parseIntBase 16 32 d
      pure ⟨seg, bus, dev, fn⟩
    | _ => none
  | _ => none

/-! ## Filesystem collaborator model

The spec's external file contract: `ReadText` distinguishes a not-found
condition from other I/O failures, otherwise returns text. -/

/-- Outcome of reading one file through the collaborator
(`util.SysReadFile` / `util.ReadFileNoStat`). -/
inductive FileResult where
  | notFound
  | ioError
  | content (s : String)
deriving DecidableEq, Repr

/-- A device directory, as the parsers see it: file name to read outcome. -/
def SysDir := String → FileResult

/-- The error taxonomy of the subsystem (spec section 7).  Go error values
are `fmt.Errorf`-wrapped; only the kind and the offending item are kept. -/
inductive Err where
  | readError (file : String)
  | numParseError (name : List Char)
  | malformedLine (fields : List (List Char))
  | unknownUnit (file : String) (value : String)
  | invalidValue (file : String) (value : String)
  | parseFailure (file : String) (value : String)
  | unknownFile (file : String)
  | resolutionError (entry : String)
  | locationError (loc : String)
  | statError (path : String)
  | interfaceNotFound (iface : String)
deriving DecidableEq, Repr

/-- `true` iff an `Except` result is an error. -/
def isFailure {α : Type} : Except Err α → Bool
  | .error _ => true
  | .ok _ => false

/-! ## AER counter records (`sysfs/pci_device_aer.go`, the live iteration:
the test files dereference its pointer-typed root-port fields) -/

/-- `CorrectableAerCounters`: 8 named `uint64` counters. -/
structure CorrectableAerCounters where
  RxErr : Nat
  BadTLP : Nat
  BadDLLP : Nat
  Rollover : Nat
  Timeout : Nat
  NonFatalErr : Nat
  CorrIntErr : Nat
  HeaderOF : Nat
deriving DecidableEq, Repr

/-- The Go zero value of `CorrectableAerCounters`. -/
def zeroCorrectable : CorrectableAerCounters := ⟨0, 0, 0, 0, 0, 0, 0, 0⟩

/-- `UncorrectableAerCounters`: 18 named `uint64` counters. -/
structure UncorrectableAerCounters where
  Undefined : Nat
  DLP : Nat
  SDES : Nat
  TLP : Nat
  FCP : Nat
  CmpltTO : Nat
  CmpltAbrt : Nat
  UnxCmplt : Nat
  RxOF : Nat
  MalfTLP : Nat
  ECRC : Nat
  UnsupReq : Nat
  ACSViol : Nat
  UncorrIntErr : Nat
  BlockedTLP : Nat
  AtomicOpBlocked : Nat
  TLPBlockedErr : Nat
  PoisonTLPBlocked : Nat
deriving DecidableEq, Repr

/-- The Go zero value of `UncorrectableAerCounters`. -/
def zeroUncorrectable : UncorrectableAerCounters :=
  ⟨0, 0, 0, 0, 0, 0, 0, 0, 0, 0, 0, 0, 0, 0, 0, 0, 0, 0⟩

/-- `PciDeviceAerCounters` (`pci_device_aer.go`): the three counter tables
plus the three root-port totals as nullable pointers (`nil` when the file
does not exist), modelled as `Option Nat`. -/
structure PciDeviceAerCounters where
  Correctable : CorrectableAerCounters
  Fatal : UncorrectableAerCounters
  NonFatal : UncorrectableAerCounters
  RootPortTotalErrCor : Option Nat
  RootPortTotalErrFatal : Option Nat
  RootPortTotalErrNonFatal : Option Nat
deriving DecidableEq, Repr

/-- The Go zero value of `PciDeviceAerCounters`. -/
def zeroPciDeviceAer : PciDeviceAerCounters :=
  ⟨zeroCorrectable, zeroUncorrectable, zeroUncorrectable, none, none, none⟩

/-! ## AER counter-file line decoding

The per-line decoding loop is textually identical in `pci_device_aer.go`
and `pci_device.go` (the superseded iteration); it is embedded once and
shared. -/

/-- The `switch counterName` of `parseCorrectableAerCounters`: a known
name sets its field, the `default: continue` leaves the record unchanged. -/
def correctableApply (c : CorrectableAerCounters) (name : List Char) (v : Nat) :
    CorrectableAerCounters :=
  if name = "RxErr".data then { c with RxErr := v }
  else if name = "BadTLP".data then { c with BadTLP := v }
  else if name = "BadDLLP".data then { c with BadDLLP := v }
  else if name = "Rollover".data then { c with Rollover := v }
  else if name = "Timeout".data then { c with Timeout := v }
  else if name = "NonFatalErr".data then { c with NonFatalErr := v }
  else if name = "CorrIntErr".data then { c with CorrIntErr := v }
  else if name = "HeaderOF".data then { c with HeaderOF := v }
  else c

/-- The `switch counterName` of `parseUncorrectableAerCounters`. -/
def uncorrectableApply (c : UncorrectableAerCounters) (name : List Char) (v : Nat) :
    UncorrectableAerCounters :=
  if name = "Undefined".data then { c with Undefined := v }
  else if name = "DLP".data then { c with DLP := v }
  else if name = "SDES".data then { c with SDES := v }
  else if name = "TLP".data then { c with TLP := v }
  else if name = "FCP".data then { c with FCP := v }
  else if name = "CmpltTO".data then { c with CmpltTO := v }
  else if name = "CmpltAbrt".data then { c with CmpltAbrt := v }
  else if name = "UnxCmplt".data then { c with UnxCmplt := v }
  else if name = "RxOF".data then { c with RxOF := v }
  else if name = "MalfTLP".data then { c with MalfTLP := v }
  else if name = "ECRC".data then { c with ECRC := v }
  else if name = "UnsupReq".data then { c with UnsupReq := v }
  else if name = "ACSViol".data then { c with ACSViol := v }
  else if name = "UncorrIntErr".data then { c with UncorrIntErr := v }
  else if name = "BlockedTLP".data then { c with BlockedTLP := v }
  else if name = "AtomicOpBlocked".data then { c with AtomicOpBlocked := v }
  else if name = "TLPBlockedErr".data then { c with TLPBlockedErr := v }
  else if name = "PoisonTLPBlocked".data then { c with PoisonTLPBlocked := v }
  else c

/-- The line loop of `parseCorrectableAerCounters`: skip empty lines,
require exactly two whitespace-separated fields, decode the value as a
decimal `uint64`, dispatch on the name. -/
def correctableLinesLoop : List (List Char) → CorrectableAerCounters →
    Except Err CorrectableAerCounters
  | [], c => .ok c
  | line :: rest, c =>
    if line = [] then correctableLinesLoop rest c
    else
      match fieldsChars line with
      | [n, vs] =>
        match parseUintBase 10 (2 ^ 64 - 1) vs with
        | none => .error (.numParseError n)
        | some v => correctableLinesLoop rest (correctableApply c n v)
      | fs => .error (.malformedLine fs)

/-- The line loop of `parseUncorrectableAerCounters` (same discipline over
the 18 uncorrectable names). -/
def uncorrectableLinesLoop : List (List Char) → UncorrectableAerCounters →
    Except Err UncorrectableAerCounters
  | [], c => .ok c
  | line :: rest, c =>
    if line = [] then uncorrectableLinesLoop rest c
    else
      match fieldsChars line with
      | [n, vs] =>
        match parseUintBase 10 (2 ^ 64 - 1) vs with
        | none => .error (.numParseError n)
        | some v => uncorrectableLinesLoop rest (uncorrectableApply c n v)
      | fs => .error (.malformedLine fs)

/-! ## Per-device AER parsing, live iteration (`sysfs/pci_device_aer.go`) -/

/-- Embeds `parseCorrectableAerCounters` of `pci_device_aer.go`: any read
failure (not-found included) is an error; otherwise decode line by line.
The Go function mutates `*CorrectableAerCounters`; here the record is
passed and returned. -/
def parseCorrectableAerCounters (dir : SysDir) (c : CorrectableAerCounters) :
    Except Err CorrectableAerCounters :=
  match dir "aer_dev_correctable" with
  | .notFound => .error (.readError "aer_dev_correctable")
  | .ioError => .error (.readError "aer_dev_correctable")
  | .content s => correctableLinesLoop (splitOnChar '\n' s.data) c

/-- Embeds `parseUncorrectableAerCounters` of `pci_device_aer.go` for
`aer_dev_<counterType>`. -/
def parseUncorrectableAerCounters (dir : SysDir) (counterType : String)
    (c : UncorrectableAerCounters) : Except Err UncorrectableAerCounters :=
  match dir ("aer_dev_" ++ counterType) with
  | .notFound => .error (.readError ("aer_dev_" ++ counterType))
  | .ioError => .error (.readError ("aer_dev_" ++ counterType))
  | .content s => uncorrectableLinesLoop (splitOnChar '\n' s.data) c

/-- One root-port total file, as read by `parseRootPortAerCounters` of
`pci_device_aer.go` (the Go repeats this block verbatim for each of the
three files): not-found yields `nil` (absent), any other read failure is
an error, a blank-after-trim value yields `nil`, otherwise the value must
parse as a decimal `uint64`. -/
def rootPortReadField (dir : SysDir) (file : String) : Except Err (Option Nat) :=
  match dir file with
  | .notFound => .ok none
  | .ioError => .error (.readError file)
  | .content s =>
    let v := trimSpaceChars s.data
    if v ≠ [] then
      match parseUintBase 10 (2 ^ 64 - 1) v with
      | none => .error (.numParseError file.data)
      | some n => .ok (some n)
    else .ok none

/-- Embeds `parseRootPortAerCounters` of `pci_device_aer.go`: the three
files in source order (`cor`, `fatal`, `nonfatal`), each through
`rootPortReadField`, aborting on the first error. -/
def parseRootPortAerCounters (dir : SysDir) (c : PciDeviceAerCounters) :
    Except Err PciDeviceAerCounters := do
  let cor ← rootPortReadField dir "aer_rootport_total_err_cor"
  let c := { c with RootPortTotalErrCor := cor }
  let fatal ← rootPortReadField dir "aer_rootport_total_err_fatal"
  let c := { c with RootPortTotalErrFatal := fatal }
  let nonfatal ← rootPortReadField dir "aer_rootport_total_err_nonfatal"
  pure { c with RootPortTotalErrNonFatal := nonfatal }

/-- Embeds `parseAerCounters` of `pci_device_aer.go`: correctable, fatal,
nonfatal, then root-port totals, aborting on the first error.  The Go
function returns `(*PciDeviceAerCounters, error)`; a `nil, nil` result
would be `.ok none`. -/
def parseAerCounters (dir : SysDir) : Except Err (Option PciDeviceAerCounters) := do
  let corr ← parseCorrectableAerCounters dir zeroCorrectable
  let fatal ← parseUncorrectableAerCounters dir "fatal" zeroUncorrectable
  let nonfatal ← parseUncorrectableAerCounters dir "nonfatal" zeroUncorrectable
  let c : PciDeviceAerCounters :=
    { Correctable := corr, Fatal := fatal, NonFatal := nonfatal,
      RootPortTotalErrCor := none, RootPortTotalErrFatal := none,
      RootPortTotalErrNonFatal := none }
  let c ← parseRootPortAerCounters dir c
  pure (some c)

/-! ## Per-device AER parsing, superseded iteration (`sysfs/pci_device.go`)

`pci_device.go` carries an earlier iteration of the same functions: plain
(non-pointer) root-port fields and a `canIgnoreError` recovery on missing
files.  Embedded under the `Gen1` namespace. -/

namespace Gen1

/-- The `PciDeviceAerCounters` of `pci_device.go`: root-port totals are
plain `uint64` (a missing file leaves them at zero). -/
structure PciDeviceAerCounters where
  Correctable : CorrectableAerCounters
  Fatal : UncorrectableAerCounters
  NonFatal : UncorrectableAerCounters
  RootPortTotalErrCor : Nat
  RootPortTotalErrFatal : Nat
  RootPortTotalErrNonFatal : Nat
deriving DecidableEq, Repr

/-- The Go zero value. -/
def zero : PciDeviceAerCounters :=
  ⟨zeroCorrectable, zeroUncorrectable, zeroUncorrectable, 0, 0, 0⟩

/-- Modelled from the spec: `canIgnoreError` (defined outside the supplied
sources) recognises the collaborator's distinguishable not-found
condition, which drives the optional-file policy; any other I/O failure is
not ignorable. -/
def canIgnoreError : FileResult → Bool
  | .notFound => true
  | _ => false

/-- Embeds `parseCorrectableAerCounters` of `pci_device.go`: an ignorable
read failure returns with the counters untouched; other failures are
errors; the line loop is the shared one. -/
def parseCorrectableAerCounters (dir : SysDir) (c : CorrectableAerCounters) :
    Except Err CorrectableAerCounters :=
  match dir "aer_dev_correctable" with
  | .notFound => .ok c
  | .ioError => .error (.readError "aer_dev_correctable")
  | .content s => correctableLinesLoop (splitOnChar '\n' s.data) c

/-- Embeds `parseUncorrectableAerCounters` of `pci_device.go`. -/
def parseUncorrectableAerCounters (dir : SysDir) (counterType : String)
    (c : UncorrectableAerCounters) : Except Err UncorrectableAerCounters :=
  match dir ("aer_dev_" ++ counterType) with
  | .notFound => .ok c
  | .ioError => .error (.readError ("aer_dev_" ++ counterType))
  | .content s => uncorrectableLinesLoop (splitOnChar '\n' s.data) c

/-- Embeds `parseRootPortAerCounters` of `pci_device.go`: an ignorable
read failure or a blank value leaves the (zero-valued) field untouched;
`rootPortReadField` returns `none` exactly in those cases. -/
def parseRootPortAerCounters (dir : SysDir) (c : PciDeviceAerCounters) :
    Except Err PciDeviceAerCounters := do
  let cor ← rootPortReadField dir "aer_rootport_total_err_cor"
  let c := match cor with
    | some v => { c with RootPortTotalErrCor := v }
    | none => c
  let fatal ← rootPortReadField dir "aer_rootport_total_err_fatal"
  let c := match fatal with
    | some v => { c with RootPortTotalErrFatal := v }
    | none => c
  let nonfatal ← rootPortReadField dir "aer_rootport_total_err_nonfatal"
  pure (match nonfatal with
    | some v => { c with RootPortTotalErrNonFatal := v }
    | none => c)

/-- Embeds `parseAerCounters` of `pci_device.go`. -/
def parseAerCounters (dir : SysDir) : Except Err (Option PciDeviceAerCounters) := do
  let corr ← parseCorrectableAerCounters dir zeroCorrectable
  let fatal ← parseUncorrectableAerCounters dir "fatal" zeroUncorrectable
  let nonfatal ← parseUncorrectableAerCounters dir "nonfatal" zeroUncorrectable
  let c : PciDeviceAerCounters :=
    { Correctable := corr, Fatal := fatal, NonFatal := nonfatal,
      RootPortTotalErrCor := 0, RootPortTotalErrFatal := 0,
      RootPortTotalErrNonFatal := 0 }
  let c ← parseRootPortAerCounters dir c
  pure (some c)

end Gen1

/-! ## Root-port aggregator (`sysfs/pci_device_rootport_aer.go`) -/

/-- `RootPortAerCounters`: the three root-port totals, required (presence
in the result set already implies AER support). -/
structure RootPortAerCounters where
  TotalErrCor : Nat
  TotalErrFatal : Nat
  TotalErrNonFatal : Nat
deriving DecidableEq, Repr

/-- One `os.ReadDir` entry of the `pcieport` driver directory. -/
structure DirEntry where
  name : String
  isRegular : Bool
deriving DecidableEq, Repr

/-- The filesystem surface `FS.RootPortAerCounters` consumes: the
enumeration of `bus/pci/drivers/pcieport` and each bound device's files. -/
structure RootPortFS where
  entries : Except Err (List DirEntry)
  deviceDir : String → SysDir

/-- Embeds `FS.RootPortDevices`: enumerate the driver directory, keep
every non-regular entry's name (bound devices are symlinks). -/
def RootPortFS.RootPortDevices (fs : RootPortFS) : Except Err (List String) :=
  match fs.entries with
  | .error e => .error e
  | .ok ds => .ok ((ds.filter fun d => !d.isRegular).map (·.name))

namespace RootPort

/-- One file of the root-port-variant loop body
(`pci_device_rootport_aer.go`): any read failure (not-found included) is
an error; a blank-after-trim value leaves `fieldValue` at zero; otherwise
the value must parse as a decimal `uint64`. -/
def rootPortFileValue (dir : SysDir) (file : String) : Except Err Nat :=
  match dir file with
  | .notFound => .error (.readError file)
  | .ioError => .error (.readError file)
  | .content s =>
    let v := trimSpaceChars s.data
    if v ≠ [] then
      match parseUintBase 10 (2 ^ 64 - 1) v with
      | none => .error (.numParseError file.data)
      | some n => .ok n
    else .ok 0

/-- The `for _, filename := range filenames` loop of the root-port-variant
`parseRootPortAerCounters`, with its `switch filename` field dispatch. -/
def parseLoop (dir : SysDir) : List String → RootPortAerCounters →
    Except Err RootPortAerCounters
  | [], c => .ok c
  | f :: fs, c =>
    match rootPortFileValue dir f with
    | .error e => .error e
    | .ok v =>
      let c :=
        if f = "aer_rootport_total_err_cor" then { c with TotalErrCor := v }
        else if f = "aer_rootport_total_err_nonfatal" then { c with TotalErrNonFatal := v }
        else if f = "aer_rootport_total_err_fatal" then { c with TotalErrFatal := v }
        else c
      parseLoop dir fs c

/-- Embeds `parseRootPortAerCounters` of `pci_device_rootport_aer.go`:
if `os.Stat` of `aer_rootport_total_err_cor` reports not-exist the device
is not AER-capable (`nil, nil`); otherwise the three files are read in
source order (`cor`, `nonfatal`, `fatal`).  The stat outcome is derived
from the same consistent snapshot as the reads. -/
def parseRootPortAerCounters (dir : SysDir) : Except Err (Option RootPortAerCounters) :=
  if dir "aer_rootport_total_err_cor" = .notFound then .ok none
  else
    match parseLoop dir
        ["aer_rootport_total_err_cor", "aer_rootport_total_err_nonfatal",
         "aer_rootport_total_err_fatal"] ⟨0, 0, 0⟩ with
    | .error e => .error e
    | .ok c => .ok (some c)

end RootPort

/-- The device loop of `FS.RootPortAerCounters`: parse each bound device,
abort on the first error, skip devices reported as non-AER-capable,
otherwise add the entry to the map (modelled as an association list in
enumeration order). -/
def rootPortAggLoop (fs : RootPortFS) : List String →
    List (String × RootPortAerCounters) →
    Except Err (List (String × RootPortAerCounters))
  | [], acc => .ok acc
  | d :: ds, acc =>
    match RootPort.parseRootPortAerCounters (fs.deviceDir d) with
    | .error e => .error e
    | .ok none => rootPortAggLoop fs ds acc
    | .ok (some c) => rootPortAggLoop fs ds (acc ++ [(d, c)])

/-- Embeds `FS.RootPortAerCounters`. -/
def RootPortFS.RootPortAerCounters (fs : RootPortFS) :
    Except Err (List (String × RootPortAerCounters)) :=
  match fs.RootPortDevices with
  | .error e => .error e
  | .ok devices => rootPortAggLoop fs devices []

/-! ## Network-class bridge (`sysfs/net_class_aer.go`) -/

/-- `AerCounters`: the per-device counters with the owning interface name
(`PciDeviceAerCounters` is embedded in the Go struct). -/
structure AerCounters where
  counters : PciDeviceAerCounters
  Name : String
deriving DecidableEq, Repr

/-- Outcome of `os.Stat` on a device directory. -/
inductive StatOutcome where
  | okStat
  | notExist
  | statFailed
deriving DecidableEq, Repr

/-- The surfaces `net_class_aer.go` consumes.  `NetClassByIface` and
`NetClassDevices` are external collaborators not among the supplied
sources; `ifaceOk` and `devicesList` are modelled from the spec: the
collaborator validates that an interface exists (`ifaceOk`) and
enumerates all interfaces (`devicesList`). -/
structure NetFS where
  ifaceOk : String → Bool
  devicesList : Except Err (List String)
  readPath : String → FileResult
  statPath : String → StatOutcome

/-- The `class/net` mount-relative path (`netclassPath`). -/
def netclassPath : String := "class/net"

/-- `filepath.Join(path, devicePath)` as used by `AerCountersByIface`
(note: the interface directory itself, without a `device` component). -/
def netIfaceDir (iface : String) : String := netclassPath ++ "/" ++ iface

/-- `filepath.Join(path, devicePath, "device")` as used by the bulk
`AerCounters`. -/
def netIfaceDeviceDir (iface : String) : String :=
  netclassPath ++ "/" ++ iface ++ "/device"

/-- View a directory path as a `SysDir` through `readPath`. -/
def NetFS.dirAt (net : NetFS) (dir : String) : SysDir :=
  fun f => net.readPath (dir ++ "/" ++ f)

/-- Embeds `FS.AerCountersByIface`: validate the interface through the
NetClass collaborator first (its error propagates), then parse the AER
counters and attach the interface name. -/
def NetFS.AerCountersByIface (net : NetFS) (iface : String) :
    Except Err (Option AerCounters) :=
  if ¬net.ifaceOk iface then .error (.interfaceNotFound iface)
  else
    match parseAerCounters (net.dirAt (netIfaceDir iface)) with
    | .error e => .error e
    | .ok none => .ok none
    | .ok (some c) => .ok (some ⟨c, iface⟩)

/-- `os.IsNotExist` applied to an error coming out of `parseAerCounters`:
`os.IsNotExist` does not unwrap `fmt.Errorf`-wrapped errors, and every
error `parseAerCounters` returns is so wrapped, hence the check is false
for every `Err`. -/
def osIsNotExistErr : Err → Bool
  | .readError _ => false
  | .numParseError _ => false
  | .malformedLine _ => false
  | .unknownUnit _ _ => false
  | .invalidValue _ _ => false
  | .parseFailure _ _ => false
  | .unknownFile _ => false
  | .resolutionError _ => false
  | .locationError _ => false
  | .statError _ => false
  | .interfaceNotFound _ => false

/-- The interface loop of the bulk `FS.AerCounters`: stat the `device`
directory (not-exist skips the interface, other stat failures abort),
parse the counters (a parse error aborts unless `os.IsNotExist` accepts
it, which never happens; a `nil` counters result skips), and accumulate
the map in enumeration order. -/
def netAerLoop (net : NetFS) : List String → List (String × AerCounters) →
    Except Err (List (String × AerCounters))
  | [], acc => .ok acc
  | iface :: rest, acc =>
    match net.statPath (netIfaceDeviceDir iface) with
    | .notExist => netAerLoop net rest acc
    | .statFailed => .error (.statError (netIfaceDeviceDir iface))
    | .okStat =>
      match parseAerCounters (net.dirAt (netIfaceDeviceDir iface)) with
      | .error e =>
        if osIsNotExistErr e then netAerLoop net rest acc else .error e
      | .ok none => netAerLoop net rest acc
      | .ok (some c) => netAerLoop net rest (acc ++ [(iface, ⟨c, iface⟩)])

/-- Embeds the bulk `FS.AerCounters`: enumerate the interfaces through
the NetClass collaborator and run the interface loop. -/
def NetFS.AerCounters (net : NetFS) : Except Err (List (String × AerCounters)) :=
  match net.devicesList with
  | .error e => .error e
  | .ok ds => netAerLoop net ds []

/-! ## Path helpers (embedding of `path/filepath` on Unix paths) -/

/-- Join path components with `/`. -/
def joinComponents (cs : List (List Char)) : List Char :=
  (cs.intersperse ['/']).flatten

/-- The component-processing step of `filepath.Clean`: empty and `.`
components vanish; `..` pops the previous component, except that at the
root it vanishes and in a relative path with nothing to pop it is kept. -/
def cleanStep (rooted : Bool) (out : List (List Char)) (c : List Char) :
    List (List Char) :=
  if c = [] ∨ c = ['.'] then out
  else if c = ['.', '.'] then
    if out ≠ [] ∧ out.getLast? ≠ some ['.', '.'] then out.dropLast
    else if rooted then out
    else out ++ [c]
  else out ++ [c]

/-- Embeds `filepath.Clean` for Unix paths. -/
def pathCleanChars (l : List Char) : List Char :=
  if l = [] then ['.']
  else
    let rooted := l.head? = some '/'
    let comps := (splitOnChar '/' l).foldl (cleanStep rooted) []
    if rooted then '/' :: joinComponents comps
    else if comps = [] then ['.']
    else joinComponents comps

/-- Embeds `filepath.Base` for Unix paths: last element after removing
trailing separators; `"."` for the empty path, `"/"` for all-separator
paths. -/
def pathBase (p : String) : String :=
  let l := p.data
  if l = [] then "."
  else
    let l := (l.reverse.dropWhile (· = '/')).reverse
    if l = [] then "/"
    else ⟨(l.reverse.takeWhile (· ≠ '/')).reverse⟩

/-- Embeds `filepath.Dir` for Unix paths: everything up to and including
the final separator, then `Clean`. -/
def pathDir (p : String) : String :=
  let l := p.data
  let pre := (l.reverse.dropWhile (· ≠ '/')).reverse
  ⟨pathCleanChars pre⟩

/-! ## Device records and the attribute parser (`sysfs/pci_device.go`) -/

/-- `PciDevice`: the device record.  Required identity fields are
`uint32` (`Nat` below); optional attributes are nullable pointers in Go,
`Option` here.  Go's `float64` link attributes are modelled as exact
rationals (the conversions performed by the source are exact on the
values involved). -/
structure PciDevice where
  Location : PciDeviceLocation
  ParentLocation : Option PciDeviceLocation
  Class : Nat
  Vendor : Nat
  Device : Nat
  SubsystemVendor : Nat
  SubsystemDevice : Nat
  Revision : Nat
  NumaNode : Option Int
  MaxLinkSpeed : Option ℚ
  MaxLinkWidth : Option ℚ
  CurrentLinkSpeed : Option ℚ
  CurrentLinkWidth : Option ℚ
  SriovDriversAutoprobe : Option Bool
  SriovNumvfs : Option Nat
  SriovOffset : Option Nat
  SriovStride : Option Nat
  SriovTotalvfs : Option Nat
  SriovVfDevice : Option Nat
  SriovVfTotalMsix : Option Nat
  D3coldAllowed : Option Bool
  PowerState : Option String
deriving DecidableEq, Repr

/-- A freshly constructed device record, all optional attributes absent
(the Go zero value with the two locations filled in). -/
def emptyPciDevice (loc : PciDeviceLocation) (parent : Option PciDeviceLocation) :
    PciDevice :=
  { Location := loc, ParentLocation := parent,
    Class := 0, Vendor := 0, Device := 0, SubsystemVendor := 0,
    SubsystemDevice := 0, Revision := 0,
    NumaNode := none, MaxLinkSpeed := none, MaxLinkWidth := none,
    CurrentLinkSpeed := none, CurrentLinkWidth := none,
    SriovDriversAutoprobe := none, SriovNumvfs := none, SriovOffset := none,
    SriovStride := none, SriovTotalvfs := none, SriovVfDevice := none,
    SriovVfTotalMsix := none, D3coldAllowed := none, PowerState := none }

/-- Embeds `PciDevice.Name()`: the canonical (colon-separated) location
string, used as the registry key. -/
def PciDevice.Name (d : PciDevice) : String :=
  ⟨d.Location.stringRepr⟩

/-- The filesystem surface the scanner consumes: the enumeration of
`bus/pci/devices`, `os.Readlink` per entry (`none` models a failing
readlink, i.e. the entry is not a symbolic link), and each entry's
attribute files. -/
structure PciFS where
  devEntries : Except Err (List String)
  readlink : String → Option String
  devFile : String → String → FileResult

/-- The `switch f` of the identity group: each of the six required files
sets its field; the `default` branch is an `unknown file` error. -/
def identityFileApply (dev : PciDevice) (f : String) (value : Nat) :
    Except Err PciDevice :=
  if f = "class" then .ok { dev with Class := value }
  else if f = "vendor" then .ok { dev with Vendor := value }
  else if f = "device" then .ok { dev with Device := value }
  else if f = "subsystem_vendor" then .ok { dev with SubsystemVendor := value }
  else if f = "subsystem_device" then .ok { dev with SubsystemDevice := value }
  else if f = "revision" then .ok { dev with Revision := value }
  else .error (.unknownFile f)

/-- The identity-group loop of `parsePciDevice`: each file is required
(any read failure is fatal), parsed with `strconv.ParseInt(_, 0, 32)` and
narrowed with `uint32(value)` (modelled as `mod 2^32`). -/
def parseIdentityLoop (fs : PciFS) (name : String) : List String → PciDevice →
    Except Err PciDevice
  | [], dev => .ok dev
  | f :: rest, dev =>
    match fs.devFile name f with
    | .notFound => .error (.readError f)
    | .ioError => .error (.readError f)
    | .content s =>
      match parseIntBase0 32 s.data with
      | none => .error (.parseFailure f s)
      | some value =>
        match identityFileApply dev f ((value.emod (2 ^ 32)).toNat) with
        | .error e => .error e
        | .ok dev => parseIdentityLoop fs name rest dev

/-- The link/NUMA-group loop body of `parsePciDevice` for one file:
not-found is tolerated (attribute left absent), other read failures are
fatal; an empty or `Unknown`-prefixed value is treated as absent; link
speeds are split after the first space, the suffix must be exactly
`GT/s PCIe`, and the trimmed prefix is parsed as a float; link widths are
base-10 integers promoted to float; the NUMA node is a signed 32-bit
integer. -/
def parseLinkNumaFile (f : String) (r : FileResult) (dev : PciDevice) :
    Except Err PciDevice :=
  match r with
  | .notFound => .ok dev
  | .ioError => .error (.readError f)
  | .content s =>
    if s.data = [] ∨ startsWithChars "Unknown".data s.data then .ok dev
    else if f = "max_link_speed" ∨ f = "current_link_speed" then
      match splitAfter2Space [] s.data with
      | [v0, v1] =>
        if v1 ≠ "GT/s PCIe".data then .error (.unknownUnit f s)
        else
          match parseFloatQ (trimSpaceChars v0) with
          | none => .error (.parseFailure f s)
          | some q =>
            if f = "max_link_speed" then .ok { dev with MaxLinkSpeed := some q }
            else .ok { dev with CurrentLinkSpeed := some q }
      | _ => .error (.invalidValue f s)
    else if f = "max_link_width" ∨ f = "current_link_width" then
      match parseIntBase 10 64 s.data with
      | none => .error (.parseFailure f s)
      | some v =>
        if f = "max_link_width" then .ok { dev with MaxLinkWidth := some (v : ℚ) }
        else .ok { dev with CurrentLinkWidth := some (v : ℚ) }
    else if f = "numa_node" then
      match parseIntBase 10 32 s.data with
      | none => .error (.parseFailure f s)
      | some v => .ok { dev with NumaNode := some v }
    else .ok dev

/-- The link/NUMA-group loop of `parsePciDevice`. -/
def parseLinkNumaLoop (fs : PciFS) (name : String) : List String → PciDevice →
    Except Err PciDevice
  | [], dev => .ok dev
  | f :: rest, dev =>
    match parseLinkNumaFile f (fs.devFile name f) dev with
    | .error e => .error e
    | .ok dev => parseLinkNumaLoop fs name rest dev

/-- The SR-IOV-group loop body of `parsePciDevice` for one file: each file
independently optional, blank-after-trim treated as absent, the
per-file numeric formats as in the source (`drivers_autoprobe` a 0/1
boolean via `ParseInt(_, 10, 32)`, `vf_device` base-16, `vf_total_msix`
64-bit, the rest base-10 32-bit unsigned). -/
def parseSriovFile (f : String) (r : FileResult) (dev : PciDevice) :
    Except Err PciDevice :=
  match r with
  | .notFound => .ok dev
  | .ioError => .error (.readError f)
  | .content s =>
    let v := trimSpaceChars s.data
    if v = [] then .ok dev
    else if f = "sriov_drivers_autoprobe" then
      match parseIntBase 10 32 v with
      | none => .error (.parseFailure f s)
      | some value => .ok { dev with SriovDriversAutoprobe := some (value ≠ 0) }
    else if f = "sriov_numvfs" then
      match parseUintBase 10 (2 ^ 32 - 1) v with
      | none => .error (.parseFailure f s)
      | some value => .ok { dev with SriovNumvfs := some value }
    else if f = "sriov_offset" then
      match parseUintBase 10 (2 ^ 32 - 1) v with
      | none => .error (.parseFailure f s)
      | some value => .ok { dev with SriovOffset := some value }
    else if f = "sriov_stride" then
      match parseUintBase 10 (2 ^ 32 - 1) v with
      | none => .error (.parseFailure f s)
      | some value => .ok { dev with SriovStride := some value }
    else if f = "sriov_totalvfs" then
      match parseUintBase 10 (2 ^ 32 - 1) v with
      | none => .error (.parseFailure f s)
      | some value => .ok { dev with SriovTotalvfs := some value }
    else if f = "sriov_vf_device" then
      match parseUintBase 16 (2 ^ 32 - 1) v with
      | none => .error (.parseFailure f s)
      | some value => .ok { dev with SriovVfDevice := some value }
    else if f = "sriov_vf_total_msix" then
      match parseUintBase 10 (2 ^ 64 - 1) v with
      | none => .error (.parseFailure f s)
      | some value => .ok { dev with SriovVfTotalMsix := some value }
    else .ok dev

/-- The SR-IOV-group loop of `parsePciDevice`. -/
def parseSriovLoop (fs : PciFS) (name : String) : List String → PciDevice →
    Except Err PciDevice
  | [], dev => .ok dev
  | f :: rest, dev =>
    match parseSriovFile f (fs.devFile name f) dev with
    | .error e => .error e
    | .ok dev => parseSriovLoop fs name rest dev

/-- The power-group loop body of `parsePciDevice` for one file:
`d3cold_allowed` a 0/1 boolean, `power_state` stored verbatim (trimmed)
without validation. -/
def parsePowerFile (f : String) (r : FileResult) (dev : PciDevice) :
    Except Err PciDevice :=
  match r with
  | .notFound => .ok dev
  | .ioError => .error (.readError f)
  | .content s =>
    let v := trimSpaceChars s.data
    if v = [] then .ok dev
    else if f = "d3cold_allowed" then
      match parseIntBase 10 32 v with
      | none => .error (.parseFailure f s)
      | some value => .ok { dev with D3coldAllowed := some (value ≠ 0) }
    else if f = "power_state" then .ok { dev with PowerState := some ⟨v⟩ }
    else .ok dev

/-- The power-group loop of `parsePciDevice`. -/
def parsePowerLoop (fs : PciFS) (name : String) : List String → PciDevice →
    Except Err PciDevice
  | [], dev => .ok dev
  | f :: rest, dev =>
    match parsePowerFile f (fs.devFile name f) dev with
    | .error e => .error e
    | .ok dev => parsePowerLoop fs name rest dev

/-- Embeds `FS.parsePciDevice`: resolve the entry as a symlink (a failing
`os.Readlink` is a resolution error), take the device location from the
target's last path segment and the parent location from the
second-to-last (unless that segment carries the kernel's `pci` host-bridge
placeholder), then run the four attribute groups. -/
def parsePciDevice (fs : PciFS) (name : String) : Except Err PciDevice :=
  match fs.readlink name with
  | none => .error (.resolutionError name)
  | some realPath =>
    let deviceLocStr := pathBase realPath
    let parentDeviceLocStr := pathBase (pathDir realPath)
    match parsePciDeviceLocation deviceLocStr.data with
    | none => .error (.locationError deviceLocStr)
    | some deviceLoc =>
      let parentResult : Except Err (Option PciDeviceLocation) :=
        if ¬startsWithChars "pci".data parentDeviceLocStr.data then
          match parsePciDeviceLocation parentDeviceLocStr.data with
          | none => .error (.locationError parentDeviceLocStr)
          | some l => .ok (some l)
        else .ok none
      match parentResult with
      | .error e => .error e
      | .ok parentLoc => do
        let dev := emptyPciDevice deviceLoc parentLoc
        let dev ← parseIdentityLoop fs name
          ["class", "vendor", "device", "subsystem_vendor",
           "subsystem_device", "revision"] dev
        let dev ← parseLinkNumaLoop fs name
          ["max_link_speed", "max_link_width", "current_link_speed",
           "current_link_width", "numa_node"] dev
        let dev ← parseSriovLoop fs name
          ["sriov_drivers_autoprobe", "sriov_numvfs", "sriov_offset",
           "sriov_stride", "sriov_totalvfs", "sriov_vf_device",
           "sriov_vf_total_msix"] dev
        let dev ← parsePowerLoop fs name
          ["d3cold_allowed", "power_state"] dev
        pure dev

/-- The entry loop of `FS.PciDevices`: parse every entry, abort on the
first failure, key the registry by `device.Name()` (association list in
enumeration order). -/
def pciDevicesLoop (fs : PciFS) : List String → List (String × PciDevice) →
    Except Err (List (String × PciDevice))
  | [], acc => .ok acc
  | n :: rest, acc =>
    match parsePciDevice fs n with
    | .error e => .error e
    | .ok dev => pciDevicesLoop fs rest (acc ++ [(dev.Name, dev)])

/-- Embeds `FS.PciDevices`: enumerate `bus/pci/devices` (an enumeration
failure is fatal) and run the entry loop. -/
def PciFS.PciDevices (fs : PciFS) : Except Err (List (String × PciDevice)) :=
  match fs.devEntries with
  | .error e => .error e
  | .ok ns => pciDevicesLoop fs ns []

/-! ## Statement-side characterizations

Definitions used only to state claims (they follow the claims' wording and
are compared against the source-translated functions above). -/

/-- Characterization used by the C4 theorem, following the claim's
per-field policy for one root-port total file: `none` marks a file whose
read or decode must fail the whole parse, `some none` an absent field
(missing file or blank-after-trim content), `some (some v)` a present
value. -/
def rootPortFieldOutcome : FileResult → Option (Option Nat)
  | .notFound => some none
  | .ioError => none
  | .content s =>
    let v := trimSpaceChars s.data
    if v = [] then some none
    else
      match parseUintBase 10 (2 ^ 64 - 1) v with
      | none => none
      | some n => some (some n)

/-- A device directory holding exactly the three root-port total files
with the given contents; used to state the C5 and C10 theorems. -/
def tripleDir (c f n : String) : SysDir := fun file =>
  if file = "aer_rootport_total_err_cor" then .content c
  else if file = "aer_rootport_total_err_fatal" then .content f
  else if file = "aer_rootport_total_err_nonfatal" then .content n
  else .notFound

/-! # Theorems

Helper lemmas first, then one theorem per claim (with witness /
counterexample theorems where required). -/

/-! ## Splitting and hex-format lemmas -/

theorem splitOnChar_ne_nil (sep : Char) (l : List Char) : splitOnChar sep l ≠ [] := by
  induction l with
  | nil => simp [splitOnChar]
  | cons c cs ih =>
    simp only [splitOnChar]
    split
    · simp
    · split
      · simp
      · simp

theorem splitOnChar_not_mem {sep : Char} {l : List Char} (h : sep ∉ l) :
    splitOnChar sep l = [l] := by
  induction l with
  | nil => rfl
  | cons c cs ih =>
    have hc : ¬(c = sep) := fun e => h (e ▸ List.mem_cons_self c cs)
    have hcs : sep ∉ cs := fun m => h (List.mem_cons_of_mem c m)
    simp only [splitOnChar, if_neg hc]
    rw [ih hcs]

theorem splitOnChar_append {sep : Char} {xs : List Char} (ys : List Char)
    (h : sep ∉ xs) :
    splitOnChar sep (xs ++ sep :: ys) = xs :: splitOnChar sep ys := by
  induction xs with
  | nil => simp [splitOnChar]
  | cons c cs ih =>
    have hc : ¬(c = sep) := fun e => h (e ▸ List.mem_cons_self c cs)
    have hcs : sep ∉ cs := fun m => h (List.mem_cons_of_mem c m)
    simp only [List.cons_append, splitOnChar, if_neg hc, List.append_eq]
    rw [ih hcs]

theorem hexChar_spec (d : Nat) (hd : d < 16) :
    goDigitVal (hexChar d) = some d ∧ hexChar d ≠ ':' ∧ hexChar d ≠ '.' ∧
      hexChar d ≠ '+' ∧ hexChar d ≠ '-' := by
  interval_cases d <;> decide

theorem hexDigitsRev_mem :
    ∀ n, ∀ c ∈ hexDigitsRev n, ∃ d, d < 16 ∧ c = hexChar d := by
  intro n
  induction n using Nat.strong_induction_on with
  | _ n ih =>
    match n with
    | 0 => intro c hc; simp [hexDigitsRev] at hc
    | m + 1 =>
      intro c hc
      rw [hexDigitsRev] at hc
      rcases List.mem_cons.mp hc with h | h
      · exact ⟨(m + 1) % 16, Nat.mod_lt _ (by norm_num), h⟩
      · exact ih ((m + 1) / 16) (Nat.div_lt_self (Nat.succ_pos m) (by norm_num)) c h

theorem parseUintDigits_append (base a : Nat) (xs ys : List Char) :
    parseUintDigits base a (xs ++ ys) =
      (parseUintDigits base a xs).bind fun a2 => parseUintDigits base a2 ys := by
  induction xs generalizing a with
  | nil => rfl
  | cons c cs ih =>
    cases hg : goDigitVal c with
    | none => simp [parseUintDigits, hg]
    | some v =>
      simp only [List.cons_append, parseUintDigits, hg]
      by_cases hv : v < base
      · simp only [if_pos hv]; exact ih _
      · simp only [if_neg hv]; simp

theorem parseUintDigits_single (a d : Nat) (hd : d < 16) :
    parseUintDigits 16 a [hexChar d] = some (16 * a + d) := by
  have h := (hexChar_spec d hd).1
  simp [parseUintDigits, h, hd]

theorem parseUintDigits_hexDigitsRev :
    ∀ n, n ≠ 0 → ∀ a, parseUintDigits 16 a (hexDigitsRev n).reverse =
      some (a * 16 ^ (hexDigitsRev n).length + n) := by
  intro n
  induction n using Nat.strong_induction_on with
  | _ n ih =>
    intro hn a
    match n, hn with
    | m + 1, _ =>
      rw [hexDigitsRev, List.reverse_cons, parseUintDigits_append]
      have hmod := Nat.div_add_mod (m + 1) 16
      have hsingle := fun b =>
        parseUintDigits_single b ((m + 1) % 16) (Nat.mod_lt _ (by norm_num))
      by_cases h0 : (m + 1) / 16 = 0
      · have hnil : hexDigitsRev ((m + 1) / 16) = [] := by rw [h0, hexDigitsRev]
        rw [hnil]
        have h1 : parseUintDigits 16 a ([] : List Char).reverse = some a := rfl
        rw [h1]
        simp only [Option.some_bind, hsingle a, List.length_cons, List.length_nil]
        rw [h0] at hmod
        congr 1
        omega
      · have hlt : (m + 1) / 16 < m + 1 := Nat.div_lt_self (Nat.succ_pos m) (by norm_num)
        rw [ih ((m + 1) / 16) hlt h0 a]
        simp only [Option.some_bind, hsingle, List.length_cons, pow_succ]
        congr 1
        set k := (hexDigitsRev ((m + 1) / 16)).length
        ring_nf
        omega

theorem parseUintDigits_hexRender (n a : Nat) :
    parseUintDigits 16 a (hexRender n) = some (a * 16 ^ (hexRender n).length + n) := by
  by_cases hn : n = 0
  · subst hn
    have h0 : hexChar 0 = '0' := by decide
    unfold hexRender
    rw [if_pos rfl, ← h0, parseUintDigits_single a 0 (by norm_num)]
    congr 1
    simp
    omega
  · unfold hexRender
    rw [if_neg hn, parseUintDigits_hexDigitsRev n hn a, List.length_reverse]

theorem parseUintDigits_zeros (k : Nat) (l : List Char) :
    parseUintDigits 16 0 (List.replicate k '0' ++ l) = parseUintDigits 16 0 l := by
  induction k with
  | zero => rfl
  | succ k ih =>
    have h0 : goDigitVal '0' = some 0 := by decide
    simp only [List.replicate_succ, List.cons_append, parseUintDigits, h0]
    norm_num
    exact ih

theorem hexRender_ne_nil (n : Nat) : hexRender n ≠ [] := by
  by_cases hn : n = 0
  · subst hn; rw [hexRender]; simp
  · rw [hexRender, if_neg hn]
    match hm : n, hn with
    | m + 1, _ =>
      rw [hexDigitsRev]
      simp

theorem hexRender_mem {n : Nat} {c : Char} (h : c ∈ hexRender n) :
    ∃ d, d < 16 ∧ c = hexChar d := by
  by_cases hn : n = 0
  · subst hn
    rw [hexRender] at h
    simp at h
    exact ⟨0, by norm_num, by rw [h]; decide⟩
  · rw [hexRender, if_neg hn, List.mem_reverse] at h
    exact hexDigitsRev_mem n c h

theorem zeroPad_eq_of_no_dash {w : Nat} {l : List Char} (h : '-' ∉ l) :
    zeroPad w l = List.replicate (w - l.length) '0' ++ l := by
  unfold zeroPad
  rw [if_neg]
  intro he
  cases l with
  | nil => simp at he
  | cons c cs =>
    simp only [List.head?_cons, Option.some.injEq] at he
    exact h (he ▸ List.mem_cons_self c cs)

theorem hexRender_no_dash (n : Nat) : '-' ∉ hexRender n := by
  intro hm
  obtain ⟨d, hd, hc⟩ := hexRender_mem hm
  exact (hexChar_spec d hd).2.2.2.2 hc.symm

theorem zeroPad_hexRender_eq (w n : Nat) :
    zeroPad w (hexRender n) =
      List.replicate (w - (hexRender n).length) '0' ++ hexRender n :=
  zeroPad_eq_of_no_dash (hexRender_no_dash n)

theorem mem_zeroPad_hexRender {w n : Nat} {c : Char}
    (h : c ∈ zeroPad w (hexRender n)) : ∃ d, d < 16 ∧ c = hexChar d := by
  rw [zeroPad_hexRender_eq] at h
  rcases List.mem_append.mp h with h | h
  · have := List.eq_of_mem_replicate h
    exact ⟨0, by norm_num, by rw [this]; decide⟩
  · exact hexRender_mem h

theorem zeroPad_hexRender_ne_nil (w n : Nat) : zeroPad w (hexRender n) ≠ [] := by
  rw [zeroPad_hexRender_eq]
  intro h
  exact hexRender_ne_nil n (List.append_eq_nil.mp h).2

theorem parseIntBase_zeroPad_hexRender (w n : Nat) (hn : n < 2 ^ 31) :
    parseIntBase 16 32 (zeroPad w (hexRender n)) = some (n : Int) := by
  have huint : parseUintBase 16 (2 ^ 32 - 1) (zeroPad w (hexRender n)) = some n := by
    unfold parseUintBase
    rw [if_neg (zeroPad_hexRender_ne_nil w n), zeroPad_hexRender_eq,
      parseUintDigits_zeros, parseUintDigits_hexRender]
    simp only [Nat.zero_mul, Nat.zero_add]
    rw [if_pos (by omega)]
  rcases hcons : zeroPad w (hexRender n) with _ | ⟨c, cs⟩
  · exact absurd hcons (zeroPad_hexRender_ne_nil w n)
  · have hcmem : c ∈ zeroPad w (hexRender n) := by
      rw [hcons]; exact List.mem_cons_self c cs
    obtain ⟨d, hd, hc⟩ := mem_zeroPad_hexRender hcmem
    have hplus : ¬(c = '+' ∨ c = '-') := by
      rintro (h | h)
      · exact (hexChar_spec d hd).2.2.2.1 (h ▸ hc).symm
      · exact (hexChar_spec d hd).2.2.2.2 (h ▸ hc).symm
    have hminus : ¬(c = '-') := fun h => hplus (Or.inr h)
    rw [hcons] at huint
    simp only [parseIntBase, if_neg hplus, huint]
    rw [if_neg (by rintro ⟨-, hge⟩; omega)]
    rw [if_neg (by rintro ⟨h, -⟩; exact hminus h)]
    rw [if_neg hminus]

theorem parseIntBase_hexRender (n : Nat) (hn : n < 2 ^ 31) :
    parseIntBase 16 32 (hexRender n) = some (n : Int) := by
  have h := parseIntBase_zeroPad_hexRender 0 n hn
  rw [zeroPad_hexRender_eq] at h
  simpa using h

theorem hexDirPiece_no_colon (w n : Nat) : ':' ∉ zeroPad w (hexRender n) := by
  intro hm
  obtain ⟨d, hd, hc⟩ := mem_zeroPad_hexRender hm
  exact (hexChar_spec d hd).2.1 hc.symm

theorem hexDirPiece_no_dot (w n : Nat) : '.' ∉ zeroPad w (hexRender n) := by
  intro hm
  obtain ⟨d, hd, hc⟩ := mem_zeroPad_hexRender hm
  exact (hexChar_spec d hd).2.2.1 hc.symm

theorem hexRender_no_colon (n : Nat) : ':' ∉ hexRender n := by
  intro hm
  obtain ⟨d, hd, hc⟩ := hexRender_mem hm
  exact (hexChar_spec d hd).2.1 hc.symm

theorem hexRender_no_dot (n : Nat) : '.' ∉ hexRender n := by
  intro hm
  obtain ⟨d, hd, hc⟩ := hexRender_mem hm
  exact (hexChar_spec d hd).2.2.1 hc.symm

/-! ## Claim C1 -/

/-- C1, counterexample: the claim as stated is false at the concrete
location `{0,0,0,0}` — the canonical text produced by `String()`
(`"0000:00:00:0"`, colon before the function) is rejected by
`parsePciDeviceLocation`, which requires exactly three `:`-separated
components. -/
theorem pci_c1_string_roundtrip_fails :
    parsePciDeviceLocation (PciDeviceLocation.stringRepr ⟨0, 0, 0, 0⟩) = none := by
  decide

/-- C1 (amended): for every representable location (segment ≤ 0xFFFF,
bus ≤ 0xFF, device ≤ 0x1F, function ≤ 0x7, all non-negative), parsing the
dot-separated directory-name rendering (`%04x:%02x:%02x.%x`, as produced
by `PciDevice.AerCounters` and used for sysfs directory names) yields the
location back unchanged; the colon-separated `String()` form is not
re-parseable. -/
theorem pci_c1_dirname_roundtrip (pdl : PciDeviceLocation)
    (hs0 : 0 ≤ pdl.Segment) (hs : pdl.Segment ≤ 0xFFFF)
    (hb0 : 0 ≤ pdl.Bus) (hb : pdl.Bus ≤ 0xFF)
    (hd0 : 0 ≤ pdl.Device) (hd : pdl.Device ≤ 0x1F)
    (hf0 : 0 ≤ pdl.Function) (hf : pdl.Function ≤ 0x7) :
    parsePciDeviceLocation pdl.dirName = some pdl := by
  obtain ⟨S, B, D, F⟩ := pdl
  simp only at hs0 hs hb0 hb hd0 hd hf0 hf
  have hS : intHexRender S = hexRender S.toNat := by
    unfold intHexRender; rw [if_neg (not_lt.mpr hs0)]
  have hB : intHexRender B = hexRender B.toNat := by
    unfold intHexRender; rw [if_neg (not_lt.mpr hb0)]
  have hD : intHexRender D = hexRender D.toNat := by
    unfold intHexRender; rw [if_neg (not_lt.mpr hd0)]
  have hF : intHexRender F = hexRender F.toNat := by
    unfold intHexRender; rw [if_neg (not_lt.mpr hf0)]
  have hsn : S.toNat < 2 ^ 31 := by omega
  have hbn : B.toNat < 2 ^ 31 := by omega
  have hdn : D.toNat < 2 ^ 31 := by omega
  have hfn : F.toNat < 2 ^ 31 := by omega
  have hsplit1 : splitOnChar ':' (zeroPad 4 (hexRender S.toNat) ++ ':' ::
      (zeroPad 2 (hexRender B.toNat) ++ ':' ::
       (zeroPad 2 (hexRender D.toNat) ++ '.' :: hexRender F.toNat))) =
      [zeroPad 4 (hexRender S.toNat), zeroPad 2 (hexRender B.toNat),
       zeroPad 2 (hexRender D.toNat) ++ '.' :: hexRender F.toNat] := by
    rw [splitOnChar_append _ (hexDirPiece_no_colon 4 _),
        splitOnChar_append _ (hexDirPiece_no_colon 2 _),
        splitOnChar_not_mem ?_]
    intro hm
    rcases List.mem_append.mp hm with h | h
    · exact hexDirPiece_no_colon 2 _ h
    · rcases List.mem_cons.mp h with h | h
      · exact absurd h (by decide)
      · exact hexRender_no_colon _ h
  have hsplit2 : splitOnChar '.'
      (zeroPad 2 (hexRender D.toNat) ++ '.' :: hexRender F.toNat) =
      [zeroPad 2 (hexRender D.toNat), hexRender F.toNat] := by
    rw [splitOnChar_append _ (hexDirPiece_no_dot 2 _),
        splitOnChar_not_mem (hexRender_no_dot _)]
  show parsePciDeviceLocation (PciDeviceLocation.dirName ⟨S, B, D, F⟩) = _
  unfold PciDeviceLocation.dirName
  simp only [hS, hB, hD, hF]
  simp only [parsePciDeviceLocation, hsplit1, hsplit2, List.cons_append,
    List.nil_append]
  simp only [parseIntBase_zeroPad_hexRender 4 S.toNat hsn,
    parseIntBase_zeroPad_hexRender 2 B.toNat hbn,
    parseIntBase_zeroPad_hexRender 2 D.toNat hdn,
    parseIntBase_hexRender F.toNat hfn]
  simp [Int.toNat_of_nonneg, hs0, hb0, hd0, hf0]

/-- C1, witness: the amended round-trip at the concrete location
`{0x12, 0xab, 0x1f, 0x7}` (directory name `"0012:ab:1f.7"`). -/
theorem pci_c1_dirname_roundtrip_witness :
    (0 ≤ (18 : Int) ∧ (18 : Int) ≤ 0xFFFF ∧ 0 ≤ (171 : Int) ∧
      (171 : Int) ≤ 0xFF ∧ 0 ≤ (31 : Int) ∧ (31 : Int) ≤ 0x1F ∧
      0 ≤ (7 : Int) ∧ (7 : Int) ≤ 0x7) ∧
    parsePciDeviceLocation (PciDeviceLocation.dirName ⟨18, 171, 31, 7⟩) =
      some ⟨18, 171, 31, 7⟩ :=
  ⟨by norm_num,
   pci_c1_dirname_roundtrip ⟨18, 171, 31, 7⟩ (by norm_num) (by norm_num)
     (by norm_num) (by norm_num) (by norm_num) (by norm_num) (by norm_num)
     (by norm_num)⟩

/-! ## Claim C2 -/

/-- C2, counterexample: parsing the colon-before-function variant
`"0000:01:00:0"` does not succeed — `parsePciDeviceLocation` splits on `:`
and requires exactly three components, so the directory-name variant with
a colon before the function is rejected. -/
theorem pci_c2_colon_variant_rejected :
    parsePciDeviceLocation "0000:01:00:0".data = none := by
  decide

/-- C2 (amended): `parsePciDeviceLocation` accepts only the dot separator
before the function component: parsing `"0000:01:00.0"` succeeds and
yields `{segment:0, bus:1, device:0, function:0}`, while parsing
`"0000:01:00:0"` (colon before function) fails. -/
theorem pci_c2_separator_variants :
    parsePciDeviceLocation "0000:01:00.0".data = some ⟨0, 1, 0, 0⟩ ∧
    parsePciDeviceLocation "0000:01:00:0".data = none := by
  constructor
  · decide
  · decide

/-! ## Except reduction lemmas -/

theorem exceptBind_error {α β : Type} (e : Err) (f : α → Except Err β) :
    ((Except.error e : Except Err α) >>= f) = Except.error e := rfl

theorem exceptBind_ok {α β : Type} (a : α) (f : α → Except Err β) :
    ((Except.ok a : Except Err α) >>= f) = f a := rfl

theorem exceptMap_error {α β : Type} (g : α → β) (e : Err) :
    (g <$> (Except.error e : Except Err α)) = Except.error e := rfl

theorem exceptMap_ok {α β : Type} (g : α → β) (a : α) :
    (g <$> (Except.ok a : Except Err α)) = Except.ok (g a) := rfl

/-! ## Claim C3 -/

/-- C3, counterexample: at the concrete device directory with no files at
all, the live whole-device parse (`pci_device_aer.go`) returns a read
error — not an absent "no AER" result — and the superseded iteration
(`pci_device.go`) returns zero-filled counters with no error, which is
also not an absent marker. -/
theorem aer_c3_missing_correctable_counterexample :
    parseAerCounters (fun _ => FileResult.notFound) =
      .error (.readError "aer_dev_correctable") ∧
    Gen1.parseAerCounters (fun _ => FileResult.notFound) = .ok (some Gen1.zero) := by
  constructor
  · rfl
  · rfl

/-- C3 (amended): the whole-device AER parse never returns an absent
"no AER" marker.  When `aer_dev_correctable` does not exist (or is
unreadable) the parse fails with a read error; any decode failure of that
file likewise propagates as the whole-device error. -/
theorem aer_c3_whole_device_policy (dir : SysDir) :
    ((dir "aer_dev_correctable" = .notFound ∨ dir "aer_dev_correctable" = .ioError) →
      parseAerCounters dir = .error (.readError "aer_dev_correctable")) ∧
    (∀ e, parseCorrectableAerCounters dir zeroCorrectable = .error e →
      parseAerCounters dir = .error e) ∧
    parseAerCounters dir ≠ .ok none := by
  refine ⟨?_, ?_, ?_⟩
  · intro h
    have hc : parseCorrectableAerCounters dir zeroCorrectable =
        .error (.readError "aer_dev_correctable") := by
      unfold parseCorrectableAerCounters
      rcases h with h | h <;> rw [h]
    unfold parseAerCounters
    rw [hc, exceptBind_error]
  · intro e he
    unfold parseAerCounters
    rw [he, exceptBind_error]
  · unfold parseAerCounters
    cases h1 : parseCorrectableAerCounters dir zeroCorrectable with
    | error e => rw [exceptBind_error]; simp
    | ok corr =>
      rw [exceptBind_ok]
      cases h2 : parseUncorrectableAerCounters dir "fatal" zeroUncorrectable with
      | error e => rw [exceptBind_error]; simp
      | ok fatal =>
        rw [exceptBind_ok]
        cases h3 : parseUncorrectableAerCounters dir "nonfatal" zeroUncorrectable with
        | error e => rw [exceptBind_error]; simp
        | ok nonfatal =>
          rw [exceptBind_ok]
          dsimp only
          cases h4 : parseRootPortAerCounters dir
              { Correctable := corr, Fatal := fatal, NonFatal := nonfatal,
                RootPortTotalErrCor := none, RootPortTotalErrFatal := none,
                RootPortTotalErrNonFatal := none } with
          | error e => rw [exceptBind_error]; simp
          | ok c => rw [exceptBind_ok]; simp [pure, Except.pure]

/-- C3, witness for the amended theorem: a directory with every file
missing triggers the read-error branch. -/
theorem aer_c3_whole_device_policy_witness :
    ((fun _ => FileResult.notFound : SysDir) "aer_dev_correctable" =
        FileResult.notFound ∨
      (fun _ => FileResult.notFound : SysDir) "aer_dev_correctable" =
        FileResult.ioError) ∧
    parseAerCounters (fun _ => FileResult.notFound) =
      .error (.readError "aer_dev_correctable") :=
  ⟨Or.inl rfl, (aer_c3_whole_device_policy (fun _ => FileResult.notFound)).1 (Or.inl rfl)⟩

/-! ## Claim C4 -/

theorem rootPortReadField_ok_iff (dir : SysDir) (file : String) (o : Option Nat) :
    rootPortReadField dir file = .ok o ↔ rootPortFieldOutcome (dir file) = some o := by
  unfold rootPortReadField rootPortFieldOutcome
  cases dir file with
  | notFound => simp
  | ioError => simp
  | content s =>
    dsimp only
    by_cases hv : trimSpaceChars s.data = []
    · rw [if_neg (by simpa using hv), if_pos hv]
      simp
    · rw [if_pos (by simpa using hv), if_neg hv]
      cases parseUintBase 10 (2 ^ 64 - 1) (trimSpaceChars s.data) <;> simp

/-- C4 (confirmed): in the per-device AER parse the three root-port total
files are handled independently: if each file is benign (missing, blank
after trimming, or holding a decimal `uint64`), the parse succeeds with
exactly the three per-field outcomes — a missing or blank file yielding an
absent value for that field only — and if any of the three files is malign
(an unreadable file or an unparsable value), the whole counter-parse
fails with an error. -/
theorem aer_c4_rootport_fields_independent (dir : SysDir) (c0 : PciDeviceAerCounters) :
    (∀ oc ofa ona,
      rootPortFieldOutcome (dir "aer_rootport_total_err_cor") = some oc →
      rootPortFieldOutcome (dir "aer_rootport_total_err_fatal") = some ofa →
      rootPortFieldOutcome (dir "aer_rootport_total_err_nonfatal") = some ona →
      parseRootPortAerCounters dir c0 =
        .ok { c0 with RootPortTotalErrCor := oc, RootPortTotalErrFatal := ofa,
                      RootPortTotalErrNonFatal := ona }) ∧
    ((rootPortFieldOutcome (dir "aer_rootport_total_err_cor") = none ∨
      rootPortFieldOutcome (dir "aer_rootport_total_err_fatal") = none ∨
      rootPortFieldOutcome (dir "aer_rootport_total_err_nonfatal") = none) →
      isFailure (parseRootPortAerCounters dir c0) = true) := by
  constructor
  · intro oc ofa ona h1 h2 h3
    have r1 := (rootPortReadField_ok_iff dir "aer_rootport_total_err_cor" oc).mpr h1
    have r2 := (rootPortReadField_ok_iff dir "aer_rootport_total_err_fatal" ofa).mpr h2
    have r3 := (rootPortReadField_ok_iff dir "aer_rootport_total_err_nonfatal" ona).mpr h3
    unfold parseRootPortAerCounters
    rw [r1, exceptBind_ok]
    rw [r2, exceptBind_ok]
    rw [r3, exceptBind_ok]
    rfl
  · intro h
    unfold parseRootPortAerCounters
    cases r1 : rootPortReadField dir "aer_rootport_total_err_cor" with
    | error e => rw [exceptBind_error]; rfl
    | ok o1 =>
      rw [exceptBind_ok]
      cases r2 : rootPortReadField dir "aer_rootport_total_err_fatal" with
      | error e => rw [exceptBind_error]; rfl
      | ok o2 =>
        rw [exceptBind_ok]
        cases r3 : rootPortReadField dir "aer_rootport_total_err_nonfatal" with
        | error e => rw [exceptBind_error]; rfl
        | ok o3 =>
          exfalso
          have h1 := (rootPortReadField_ok_iff dir "aer_rootport_total_err_cor" o1).mp r1
          have h2 := (rootPortReadField_ok_iff dir "aer_rootport_total_err_fatal" o2).mp r2
          have h3 := (rootPortReadField_ok_iff dir "aer_rootport_total_err_nonfatal" o3).mp r3
          rcases h with h | h | h <;> simp [h] at h1 h2 h3

/-- C4, witness: a directory whose `cor` file is missing, whose `fatal`
file holds `5`, and whose `nonfatal` file is blank yields the mixed
outcome `{cor: absent, fatal: 5, nonfatal: absent}` with no error. -/
theorem aer_c4_rootport_fields_independent_witness :
    rootPortFieldOutcome
        ((fun f => if f = "aer_rootport_total_err_fatal" then .content "5"
          else if f = "aer_rootport_total_err_nonfatal" then .content " "
          else FileResult.notFound : SysDir) "aer_rootport_total_err_cor") = some none ∧
    parseRootPortAerCounters
        (fun f => if f = "aer_rootport_total_err_fatal" then .content "5"
          else if f = "aer_rootport_total_err_nonfatal" then .content " "
          else FileResult.notFound) zeroPciDeviceAer =
      .ok ⟨zeroCorrectable, zeroUncorrectable, zeroUncorrectable,
           none, some 5, none⟩ :=
  ⟨rfl,
   (aer_c4_rootport_fields_independent
      (fun f => if f = "aer_rootport_total_err_fatal" then .content "5"
        else if f = "aer_rootport_total_err_nonfatal" then .content " "
        else FileResult.notFound) zeroPciDeviceAer).1 none (some 5) none
     rfl (by decide) (by decide)⟩

/-! ## Claim C7 -/

/-- C7 (confirmed): `parseCorrectableAerCounters` decodes line by line:
empty lines are skipped; a non-empty line that does not split into exactly
two whitespace-separated fields fails the parse; a two-field line whose
value is not a decimal `uint64` fails the parse; a two-field line updates
the record through the name switch and decoding continues; each of the
8 known names sets exactly its field, while an unrecognized name (any name
outside the known 8, e.g. `FooBar`) leaves the record unchanged; a later
line for the same known name overwrites an earlier one; and the
spec's example file decodes to `{RxErr:1, …, HeaderOF:8}` with the
`FooBar 99` line ignored. -/
theorem aer_c7_correctable_line_decoding :
    (∀ ls c, correctableLinesLoop ([] :: ls) c = correctableLinesLoop ls c) ∧
    (∀ l ls c, l ≠ [] → (fieldsChars l).length ≠ 2 →
      correctableLinesLoop (l :: ls) c = .error (.malformedLine (fieldsChars l))) ∧
    (∀ l ls c n vs, l ≠ [] → fieldsChars l = [n, vs] →
      parseUintBase 10 (2 ^ 64 - 1) vs = none →
      correctableLinesLoop (l :: ls) c = .error (.numParseError n)) ∧
    (∀ l ls c n vs v, l ≠ [] → fieldsChars l = [n, vs] →
      parseUintBase 10 (2 ^ 64 - 1) vs = some v →
      correctableLinesLoop (l :: ls) c = correctableLinesLoop ls (correctableApply c n v)) ∧
    (∀ c v, correctableApply c "RxErr".data v = { c with RxErr := v } ∧
      correctableApply c "BadTLP".data v = { c with BadTLP := v } ∧
      correctableApply c "BadDLLP".data v = { c with BadDLLP := v } ∧
      correctableApply c "Rollover".data v = { c with Rollover := v } ∧
      correctableApply c "Timeout".data v = { c with Timeout := v } ∧
      correctableApply c "NonFatalErr".data v = { c with NonFatalErr := v } ∧
      correctableApply c "CorrIntErr".data v = { c with CorrIntErr := v } ∧
      correctableApply c "HeaderOF".data v = { c with HeaderOF := v }) ∧
    (∀ c n v, n ∉ ["RxErr".data, "BadTLP".data, "BadDLLP".data, "Rollover".data,
        "Timeout".data, "NonFatalErr".data, "CorrIntErr".data, "HeaderOF".data] →
      correctableApply c n v = c) ∧
    (∀ c, correctableLinesLoop ["RxErr 1".data, "RxErr 2".data] c =
      .ok { c with RxErr := 2 }) ∧
    parseCorrectableAerCounters
      (fun f => if f = "aer_dev_correctable" then
        .content "RxErr 1\nBadTLP 2\nBadDLLP 3\nRollover 4\nTimeout 5\nNonFatalErr 6\nCorrIntErr 7\nHeaderOF 8\nFooBar 99"
        else .notFound) zeroCorrectable = .ok ⟨1, 2, 3, 4, 5, 6, 7, 8⟩ := by
  refine ⟨?_, ?_, ?_, ?_, ?_, ?_, ?_, ?_⟩
  · intro ls c
    simp [correctableLinesLoop]
  · intro l ls c hne hlen
    simp only [correctableLinesLoop, if_neg hne]
    rcases hf : fieldsChars l with _ | ⟨n1, _ | ⟨v1, _ | ⟨x, rest⟩⟩⟩
    · rfl
    · rfl
    · rw [hf] at hlen; simp at hlen
    · rfl
  · intro l ls c n vs hne hf hp
    simp only [correctableLinesLoop, if_neg hne, hf, hp]
  · intro l ls c n vs v hne hf hp
    simp only [correctableLinesLoop, if_neg hne, hf, hp]
  · intro c v
    refine ⟨rfl, ?_, ?_, ?_, ?_, ?_, ?_, ?_⟩ <;> rfl
  · intro c n v h
    simp only [List.mem_cons, List.not_mem_nil, or_false, not_or] at h
    obtain ⟨h1, h2, h3, h4, h5, h6, h7, h8⟩ := h
    simp [correctableApply, h1, h2, h3, h4, h5, h6, h7, h8]
  · intro c
    rfl
  · rfl

/-- C7, witness: a non-empty one-field line (`"Rollover"`) fails the
decode with a malformed-line error. -/
theorem aer_c7_correctable_line_decoding_witness :
    ("Rollover".data ≠ [] ∧ (fieldsChars "Rollover".data).length ≠ 2) ∧
    correctableLinesLoop ["Rollover".data] zeroCorrectable =
      .error (.malformedLine (fieldsChars "Rollover".data)) :=
  ⟨⟨by decide, by decide⟩,
   aer_c7_correctable_line_decoding.2.1 "Rollover".data [] zeroCorrectable
     (by decide) (by decide)⟩

/-! ## Claim C5 -/

theorem rootPortAggLoop_mem (fs : RootPortFS) :
    ∀ ds acc res, rootPortAggLoop fs ds acc = .ok res → ∀ p ∈ res,
      p ∈ acc ∨
        RootPort.parseRootPortAerCounters (fs.deviceDir p.1) = .ok (some p.2) := by
  intro ds
  induction ds with
  | nil =>
    intro acc res h p hp
    simp only [rootPortAggLoop, Except.ok.injEq] at h
    subst h
    exact Or.inl hp
  | cons d ds ih =>
    intro acc res h p hp
    simp only [rootPortAggLoop] at h
    cases hr : RootPort.parseRootPortAerCounters (fs.deviceDir d) with
    | error e => rw [hr] at h; cases h
    | ok o =>
      rw [hr] at h
      cases o with
      | none => exact ih acc res h p hp
      | some c =>
        rcases ih _ _ h p hp with hacc | hparse
        · rcases List.mem_append.mp hacc with h1 | h1
          · exact Or.inl h1
          · simp only [List.mem_singleton] at h1
            subst h1
            exact Or.inr hr
        · exact Or.inr hparse

/-- C5 (confirmed): the root-port aggregator over a driver directory with
two bound devices `A` and `B` whose total files hold `1/2/3` and `4/5/6`
returns exactly the map `{A ↦ {1,2,3}, B ↦ {4,5,6}}`; every bound device
whose presence-indicator file (`aer_rootport_total_err_cor`) is absent is
skipped by the device loop without error and never appears in a
successful result map. -/
theorem rootport_c5_aggregator_map :
    (∀ (fs : RootPortFS) (A B : String),
      fs.entries = .ok [⟨A, false⟩, ⟨B, false⟩] →
      fs.deviceDir A = tripleDir "1" "2" "3" →
      fs.deviceDir B = tripleDir "4" "5" "6" →
      fs.RootPortAerCounters = .ok [(A, ⟨1, 2, 3⟩), (B, ⟨4, 5, 6⟩)]) ∧
    (∀ (fs : RootPortFS) (d : String) (ds : List String)
        (acc : List (String × RootPortAerCounters)),
      fs.deviceDir d "aer_rootport_total_err_cor" = .notFound →
      rootPortAggLoop fs (d :: ds) acc = rootPortAggLoop fs ds acc) ∧
    (∀ (fs : RootPortFS) (d : String) (m : List (String × RootPortAerCounters)),
      fs.RootPortAerCounters = .ok m →
      fs.deviceDir d "aer_rootport_total_err_cor" = .notFound →
      ∀ c, (d, c) ∉ m) := by
  refine ⟨?_, ?_, ?_⟩
  · intro fs A B hent hA hB
    unfold RootPortFS.RootPortAerCounters RootPortFS.RootPortDevices
    rw [hent]
    simp only [List.filter, Bool.not_false, List.map]
    unfold rootPortAggLoop
    rw [hA, show RootPort.parseRootPortAerCounters (tripleDir "1" "2" "3") =
      .ok (some ⟨1, 2, 3⟩) from rfl]
    unfold rootPortAggLoop
    rw [hB, show RootPort.parseRootPortAerCounters (tripleDir "4" "5" "6") =
      .ok (some ⟨4, 5, 6⟩) from rfl]
    rfl
  · intro fs d ds acc hcor
    have hp : RootPort.parseRootPortAerCounters (fs.deviceDir d) = .ok none := by
      unfold RootPort.parseRootPortAerCounters; rw [if_pos hcor]
    rw [rootPortAggLoop, hp]
  · intro fs d m hok hcor c hmem
    unfold RootPortFS.RootPortAerCounters at hok
    cases hent : fs.RootPortDevices with
    | error e => rw [hent] at hok; cases hok
    | ok devices =>
      rw [hent] at hok
      rcases rootPortAggLoop_mem fs devices [] m hok (d, c) hmem with h | h
      · cases h
      · rw [show RootPort.parseRootPortAerCounters (fs.deviceDir (d, c).1) =
          .ok none by
            unfold RootPort.parseRootPortAerCounters; rw [if_pos hcor]] at h
        cases h

/-- C5, witness: the aggregator at the test-fixture configuration — two
bound devices plus one bound device with no presence file; the map holds
exactly the two AER-capable devices. -/
theorem rootport_c5_aggregator_map_witness :
    (⟨.ok [⟨"0000:00:02.1", false⟩, ⟨"0000:00:03.0", false⟩],
      fun d => if d = "0000:00:02.1" then tripleDir "1" "2" "3"
        else if d = "0000:00:03.0" then tripleDir "4" "5" "6"
        else fun _ => .notFound⟩ : RootPortFS).entries =
      .ok [⟨"0000:00:02.1", false⟩, ⟨"0000:00:03.0", false⟩] ∧
    (⟨.ok [⟨"0000:00:02.1", false⟩, ⟨"0000:00:03.0", false⟩],
      fun d => if d = "0000:00:02.1" then tripleDir "1" "2" "3"
        else if d = "0000:00:03.0" then tripleDir "4" "5" "6"
        else fun _ => .notFound⟩ : RootPortFS).RootPortAerCounters =
      .ok [("0000:00:02.1", ⟨1, 2, 3⟩), ("0000:00:03.0", ⟨4, 5, 6⟩)] :=
  ⟨rfl,
   rootport_c5_aggregator_map.1
     ⟨.ok [⟨"0000:00:02.1", false⟩, ⟨"0000:00:03.0", false⟩],
      fun d => if d = "0000:00:02.1" then tripleDir "1" "2" "3"
        else if d = "0000:00:03.0" then tripleDir "4" "5" "6"
        else fun _ => .notFound⟩
     "0000:00:02.1" "0000:00:03.0" rfl rfl rfl⟩

/-! ## Claim C10 -/

theorem parseLoop_cons_err (dir : SysDir) (f : String) (fs : List String)
    (c0 : RootPortAerCounters) (e : Err)
    (hv : RootPort.rootPortFileValue dir f = .error e) :
    RootPort.parseLoop dir (f :: fs) c0 = .error e := by
  rw [RootPort.parseLoop, hv]

theorem parseLoop_cons_ok (dir : SysDir) (f : String) (fs : List String)
    (c0 : RootPortAerCounters) (v : Nat)
    (hv : RootPort.rootPortFileValue dir f = .ok v) :
    RootPort.parseLoop dir (f :: fs) c0 =
      RootPort.parseLoop dir fs
        (if f = "aer_rootport_total_err_cor" then { c0 with TotalErrCor := v }
         else if f = "aer_rootport_total_err_nonfatal" then { c0 with TotalErrNonFatal := v }
         else if f = "aer_rootport_total_err_fatal" then { c0 with TotalErrFatal := v }
         else c0) := by
  rw [RootPort.parseLoop, hv]

theorem rootPortParseLoop_fail (dir : SysDir) :
    ∀ (files : List String) (c0 : RootPortAerCounters) (f : String),
      f ∈ files → dir f = .notFound →
      isFailure (RootPort.parseLoop dir files c0) = true := by
  intro files
  induction files with
  | nil => intro c0 f h; simp at h
  | cons g gs ih =>
    intro c0 f hmem hnf
    cases hv : RootPort.rootPortFileValue dir g with
    | error e => rw [parseLoop_cons_err dir g gs c0 e hv]; rfl
    | ok v =>
      rw [parseLoop_cons_ok dir g gs c0 v hv]
      rcases List.mem_cons.mp hmem with he | he
      · subst he
        unfold RootPort.rootPortFileValue at hv
        rw [hnf] at hv
        cases hv
      · exact ih _ f he hnf

theorem rootPortParse_fail_of_missing (dir : SysDir)
    (hcor : dir "aer_rootport_total_err_cor" ≠ .notFound)
    (hmiss : dir "aer_rootport_total_err_fatal" = .notFound ∨
      dir "aer_rootport_total_err_nonfatal" = .notFound) :
    isFailure (RootPort.parseRootPortAerCounters dir) = true := by
  have hloop : isFailure (RootPort.parseLoop dir
      ["aer_rootport_total_err_cor", "aer_rootport_total_err_nonfatal",
       "aer_rootport_total_err_fatal"] ⟨0, 0, 0⟩) = true := by
    rcases hmiss with h | h
    · exact rootPortParseLoop_fail dir _ _ "aer_rootport_total_err_fatal"
        (by simp) h
    · exact rootPortParseLoop_fail dir _ _ "aer_rootport_total_err_nonfatal"
        (by simp) h
  unfold RootPort.parseRootPortAerCounters
  rw [if_neg hcor]
  cases hl : RootPort.parseLoop dir
      ["aer_rootport_total_err_cor", "aer_rootport_total_err_nonfatal",
       "aer_rootport_total_err_fatal"] ⟨0, 0, 0⟩ with
  | error e => rfl
  | ok c => rw [hl] at hloop; cases hloop

theorem rootPortAggLoop_fail (fs : RootPortFS) :
    ∀ (ds : List String) (acc : List (String × RootPortAerCounters)) (d : String),
      d ∈ ds →
      isFailure (RootPort.parseRootPortAerCounters (fs.deviceDir d)) = true →
      isFailure (rootPortAggLoop fs ds acc) = true := by
  intro ds
  induction ds with
  | nil => intro acc d h; simp at h
  | cons d' ds ih =>
    intro acc d hmem hfail
    rw [rootPortAggLoop]
    cases hp : RootPort.parseRootPortAerCounters (fs.deviceDir d') with
    | error e => rfl
    | ok o =>
      have hd : d ≠ d' := by
        intro he
        rw [he, hp] at hfail
        cases hfail
      rcases List.mem_cons.mp hmem with he | he
      · exact absurd he hd
      · cases o with
        | none => exact ih acc d he hfail
        | some c => exact ih (acc ++ [(d', c)]) d he hfail

theorem parseLoop_tail_cor (dir : SysDir) (c0 c' : RootPortAerCounters)
    (h : RootPort.parseLoop dir
      ["aer_rootport_total_err_nonfatal", "aer_rootport_total_err_fatal"] c0 =
        .ok c') :
    c'.TotalErrCor = c0.TotalErrCor := by
  cases h1 : RootPort.rootPortFileValue dir "aer_rootport_total_err_nonfatal" with
  | error e => rw [parseLoop_cons_err dir _ _ c0 e h1] at h; cases h
  | ok v1 =>
    rw [parseLoop_cons_ok dir _ _ c0 v1 h1, if_neg (by decide), if_pos rfl] at h
    cases h2 : RootPort.rootPortFileValue dir "aer_rootport_total_err_fatal" with
    | error e => rw [parseLoop_cons_err dir _ _ _ e h2] at h; cases h
    | ok v2 =>
      rw [parseLoop_cons_ok dir _ _ _ v2 h2, if_neg (by decide),
        if_neg (by decide), if_pos rfl, RootPort.parseLoop] at h
      injection h with h
      rw [← h]

/-- C10 (confirmed): in the root-port aggregator path, AER presence is
decided solely by the existence of `aer_rootport_total_err_cor`: when that
file exists but `aer_rootport_total_err_fatal` or
`aer_rootport_total_err_nonfatal` is missing, the per-device parse fails
(it is neither skipped nor reported with absent fields), so the whole
aggregation fails; and a root-port total file that exists but is blank
after trimming yields `0` for its field — at the concrete directories, a
blank `cor` file and a `cor` file holding `"0"` produce identical
results. -/
theorem rootport_c10_presence_and_blank :
    (∀ dir : SysDir, dir "aer_rootport_total_err_cor" ≠ .notFound →
      (dir "aer_rootport_total_err_fatal" = .notFound ∨
       dir "aer_rootport_total_err_nonfatal" = .notFound) →
      isFailure (RootPort.parseRootPortAerCounters dir) = true) ∧
    (∀ (fs : RootPortFS) (ds : List String) (d : String),
      fs.RootPortDevices = .ok ds → d ∈ ds →
      fs.deviceDir d "aer_rootport_total_err_cor" ≠ .notFound →
      (fs.deviceDir d "aer_rootport_total_err_fatal" = .notFound ∨
       fs.deviceDir d "aer_rootport_total_err_nonfatal" = .notFound) →
      isFailure fs.RootPortAerCounters = true) ∧
    (∀ (dir : SysDir) (s : String) (c' : RootPortAerCounters),
      dir "aer_rootport_total_err_cor" = .content s →
      trimSpaceChars s.data = [] →
      RootPort.parseRootPortAerCounters dir = .ok (some c') →
      c'.TotalErrCor = 0) ∧
    (RootPort.parseRootPortAerCounters (tripleDir " " "2" "3") =
        .ok (some ⟨0, 2, 3⟩) ∧
      RootPort.parseRootPortAerCounters (tripleDir "0" "2" "3") =
        .ok (some ⟨0, 2, 3⟩)) := by
  refine ⟨?_, ?_, ?_, rfl, rfl⟩
  · exact rootPortParse_fail_of_missing
  · intro fs ds d hds hmem hcor hmiss
    unfold RootPortFS.RootPortAerCounters
    rw [hds]
    exact rootPortAggLoop_fail fs ds [] d hmem
      (rootPortParse_fail_of_missing (fs.deviceDir d) hcor hmiss)
  · intro dir s c' hcor htrim hok
    have hne : dir "aer_rootport_total_err_cor" ≠ .notFound := by
      rw [hcor]; intro h; cases h
    have h1 : RootPort.rootPortFileValue dir "aer_rootport_total_err_cor" = .ok 0 := by
      unfold RootPort.rootPortFileValue
      rw [hcor]
      dsimp only
      rw [htrim]
      rfl
    unfold RootPort.parseRootPortAerCounters at hok
    rw [if_neg hne] at hok
    cases hl : RootPort.parseLoop dir
        ["aer_rootport_total_err_cor", "aer_rootport_total_err_nonfatal",
         "aer_rootport_total_err_fatal"] ⟨0, 0, 0⟩ with
    | error e => rw [hl] at hok; cases hok
    | ok cm =>
      rw [hl] at hok
      have hcm : cm = c' := by
        simp only [Except.ok.injEq, Option.some.injEq] at hok
        exact hok
      subst hcm
      rw [parseLoop_cons_ok dir _ _ _ 0 h1, if_pos rfl] at hl
      have := parseLoop_tail_cor dir _ _ hl
      rw [this]

/-- C10, witness: at the concrete directory whose `cor` file holds `1`
but whose `fatal` file is missing (`nonfatal` present), the per-device
root-port parse fails. -/
theorem rootport_c10_presence_and_blank_witness :
    ((fun f => if f = "aer_rootport_total_err_cor" then .content "1"
      else if f = "aer_rootport_total_err_nonfatal" then .content "3"
      else FileResult.notFound : SysDir) "aer_rootport_total_err_cor" ≠
        FileResult.notFound) ∧
    isFailure (RootPort.parseRootPortAerCounters
      (fun f => if f = "aer_rootport_total_err_cor" then .content "1"
        else if f = "aer_rootport_total_err_nonfatal" then .content "3"
        else FileResult.notFound)) = true :=
  ⟨by decide,
   rootport_c10_presence_and_blank.1
     (fun f => if f = "aer_rootport_total_err_cor" then .content "1"
       else if f = "aer_rootport_total_err_nonfatal" then .content "3"
       else FileResult.notFound)
     (by decide) (Or.inl (by decide))⟩

/-! ## Claim C6 -/

theorem pciDevicesLoop_fail (fs : PciFS) :
    ∀ (ns : List String) (acc : List (String × PciDevice)) (n : String),
      n ∈ ns → isFailure (parsePciDevice fs n) = true →
      isFailure (pciDevicesLoop fs ns acc) = true := by
  intro ns
  induction ns with
  | nil => intro acc n h; simp at h
  | cons n' ns ih =>
    intro acc n hmem hfail
    rw [pciDevicesLoop]
    cases hp : parsePciDevice fs n' with
    | error e => rfl
    | ok dev =>
      have hd : n ≠ n' := by
        intro he
        rw [he, hp] at hfail
        cases hfail
      rcases List.mem_cons.mp hmem with he | he
      · exact absurd he hd
      · exact ih (acc ++ [(dev.Name, dev)]) n he hfail

theorem pciDevicesLoop_ok_all (fs : PciFS) :
    ∀ (ns : List String) (acc m : List (String × PciDevice)),
      pciDevicesLoop fs ns acc = .ok m →
      ∀ n ∈ ns, ∃ d, parsePciDevice fs n = .ok d := by
  intro ns
  induction ns with
  | nil => intro acc m _ n h; simp at h
  | cons n' ns ih =>
    intro acc m hok n hmem
    rw [pciDevicesLoop] at hok
    cases hp : parsePciDevice fs n' with
    | error e => rw [hp] at hok; cases hok
    | ok dev =>
      rw [hp] at hok
      rcases List.mem_cons.mp hmem with he | he
      · exact ⟨dev, he ▸ hp⟩
      · exact ih _ m hok n he

/-- C6 (confirmed): the device scan is fail-fast and all-or-nothing: if
any enumerated entry fails to parse (for any reason — unresolvable
symlink, malformed location, unreadable or unparsable required attribute),
the whole scan returns an error and no registry; a successful scan implies
every enumerated entry parsed; and an entry whose symlink cannot be
resolved produces specifically a resolution error. -/
theorem pci_c6_scan_fail_fast :
    (∀ (fs : PciFS) (names : List String) (n : String),
      fs.devEntries = .ok names → n ∈ names →
      isFailure (parsePciDevice fs n) = true →
      isFailure fs.PciDevices = true) ∧
    (∀ (fs : PciFS) (names : List String) (m : List (String × PciDevice)),
      fs.devEntries = .ok names → fs.PciDevices = .ok m →
      ∀ n ∈ names, ∃ d, parsePciDevice fs n = .ok d) ∧
    (∀ (fs : PciFS) (n : String), fs.readlink n = none →
      parsePciDevice fs n = .error (.resolutionError n)) := by
  refine ⟨?_, ?_, ?_⟩
  · intro fs names n hent hmem hfail
    unfold PciFS.PciDevices
    rw [hent]
    exact pciDevicesLoop_fail fs names [] n hmem hfail
  · intro fs names m hent hok
    unfold PciFS.PciDevices at hok
    rw [hent] at hok
    exact pciDevicesLoop_ok_all fs names [] m hok
  · intro fs n h
    unfold parsePciDevice
    rw [h]

/-- C6, witness: a filesystem whose single entry is not resolvable as a
symlink makes the scan fail, and the per-entry parse reports a resolution
error. -/
theorem pci_c6_scan_fail_fast_witness :
    ((⟨.ok ["entry0"], fun _ => none, fun _ _ => .notFound⟩ : PciFS).readlink
        "entry0" = none) ∧
    parsePciDevice ⟨.ok ["entry0"], fun _ => none, fun _ _ => .notFound⟩
        "entry0" = .error (.resolutionError "entry0") ∧
    isFailure (⟨.ok ["entry0"], fun _ => none,
        fun _ _ => .notFound⟩ : PciFS).PciDevices = true :=
  ⟨rfl,
   pci_c6_scan_fail_fast.2.2 ⟨.ok ["entry0"], fun _ => none, fun _ _ => .notFound⟩
     "entry0" rfl,
   pci_c6_scan_fail_fast.1 ⟨.ok ["entry0"], fun _ => none, fun _ _ => .notFound⟩
     ["entry0"] "entry0" rfl (by simp)
     (by rw [pci_c6_scan_fail_fast.2.2 _ "entry0" rfl]; rfl)⟩

/-! ## Claim C8 -/

/-- C8 (confirmed): for `max_link_speed` / `current_link_speed` values,
the value is split after the first space and the suffix must be exactly
`"GT/s PCIe"`: a value (other than the empty / `Unknown` sentinels) whose
suffix differs fails the device parse with an unknown-unit error; an
empty value or one beginning with `Unknown` leaves the attribute absent
with no error; and the well-formed value `"8.0 GT/s PCIe"` stores the
numeric prefix `8.0` in the corresponding attribute. -/
theorem pci_c8_link_speed_parsing :
    (∀ (f : String) (s : String) (p suf : List Char) (dev : PciDevice),
      (f = "max_link_speed" ∨ f = "current_link_speed") →
      s.data ≠ [] → startsWithChars "Unknown".data s.data = false →
      splitAfter2Space [] s.data = [p, suf] → suf ≠ "GT/s PCIe".data →
      parseLinkNumaFile f (.content s) dev = .error (.unknownUnit f s)) ∧
    (∀ (f : String) (dev : PciDevice),
      parseLinkNumaFile f (.content "") dev = .ok dev) ∧
    (∀ (f : String) (s : String) (dev : PciDevice),
      startsWithChars "Unknown".data s.data = true →
      parseLinkNumaFile f (.content s) dev = .ok dev) ∧
    (∀ dev : PciDevice,
      parseLinkNumaFile "max_link_speed" (.content "8.0 GT/s PCIe") dev =
        .ok { dev with MaxLinkSpeed := some 8 } ∧
      parseLinkNumaFile "current_link_speed" (.content "8.0 GT/s PCIe") dev =
        .ok { dev with CurrentLinkSpeed := some 8 }) := by
  refine ⟨?_, ?_, ?_, ?_⟩
  · intro f s p suf dev hf hne hunk hsplit hsuf
    have hcond : ¬(s.data = [] ∨ startsWithChars "Unknown".data s.data = true) := by
      push_neg
      exact ⟨hne, by rw [hunk]; simp⟩
    unfold parseLinkNumaFile
    dsimp only
    rw [if_neg (by simpa using hcond), if_pos hf, hsplit]
    dsimp only
    rw [if_pos hsuf]
  · intro f dev
    unfold parseLinkNumaFile
    dsimp only
    rw [if_pos (Or.inl rfl)]
  · intro f s dev hunk
    unfold parseLinkNumaFile
    dsimp only
    rw [if_pos (Or.inr (by rw [hunk]))]
  · intro dev
    have hq : parseFloatQ (trimSpaceChars "8.0 ".data) = some (8 : ℚ) := by decide
    constructor
    · unfold parseLinkNumaFile
      dsimp only
      rw [if_neg (by decide), if_pos (Or.inl rfl),
        show splitAfter2Space [] "8.0 GT/s PCIe".data =
          ["8.0 ".data, "GT/s PCIe".data] from by decide]
      dsimp only
      rw [if_neg (by decide), hq]
      dsimp only
      rw [if_pos rfl]
    · unfold parseLinkNumaFile
      dsimp only
      rw [if_neg (by decide), if_pos (Or.inr rfl),
        show splitAfter2Space [] "8.0 GT/s PCIe".data =
          ["8.0 ".data, "GT/s PCIe".data] from by decide]
      dsimp only
      rw [if_neg (by decide), hq]
      dsimp only
      rw [if_neg (by decide)]

/-- C8, witness: the unknown-unit failure at the concrete value
`"8.0 GT/s"` for `max_link_speed`. -/
theorem pci_c8_link_speed_parsing_witness :
    (("8.0 GT/s" : String).data ≠ [] ∧
      splitAfter2Space [] ("8.0 GT/s" : String).data =
        ["8.0 ".data, "GT/s".data] ∧
      "GT/s".data ≠ "GT/s PCIe".data) ∧
    parseLinkNumaFile "max_link_speed" (.content "8.0 GT/s")
        (emptyPciDevice ⟨0, 0, 0, 0⟩ none) =
      .error (.unknownUnit "max_link_speed" "8.0 GT/s") :=
  ⟨⟨by decide, by decide, by decide⟩,
   pci_c8_link_speed_parsing.1 "max_link_speed" "8.0 GT/s" "8.0 ".data
     "GT/s".data (emptyPciDevice ⟨0, 0, 0, 0⟩ none) (Or.inl rfl) (by decide)
     (by decide) (by decide) (by decide)⟩

/-! ## Claim C9 -/

theorem osIsNotExistErr_false (e : Err) : osIsNotExistErr e = false := by
  cases e <;> rfl

theorem netAerLoop_cons_notExist (net : NetFS) (i : String) (ds : List String)
    (acc : List (String × AerCounters))
    (h : net.statPath (netIfaceDeviceDir i) = .notExist) :
    netAerLoop net (i :: ds) acc = netAerLoop net ds acc := by
  rw [netAerLoop, h]

theorem netAerLoop_cons_statFailed (net : NetFS) (i : String) (ds : List String)
    (acc : List (String × AerCounters))
    (h : net.statPath (netIfaceDeviceDir i) = .statFailed) :
    netAerLoop net (i :: ds) acc = .error (.statError (netIfaceDeviceDir i)) := by
  rw [netAerLoop, h]

theorem netAerLoop_cons_err (net : NetFS) (i : String) (ds : List String)
    (acc : List (String × AerCounters)) (e : Err)
    (hstat : net.statPath (netIfaceDeviceDir i) = .okStat)
    (hp : parseAerCounters (net.dirAt (netIfaceDeviceDir i)) = .error e) :
    netAerLoop net (i :: ds) acc = .error e := by
  rw [netAerLoop, hstat, hp]
  dsimp only
  rw [osIsNotExistErr_false]
  rfl

theorem netAerLoop_cons_ok_none (net : NetFS) (i : String) (ds : List String)
    (acc : List (String × AerCounters))
    (hstat : net.statPath (netIfaceDeviceDir i) = .okStat)
    (hp : parseAerCounters (net.dirAt (netIfaceDeviceDir i)) = .ok none) :
    netAerLoop net (i :: ds) acc = netAerLoop net ds acc := by
  rw [netAerLoop, hstat, hp]

theorem netAerLoop_cons_ok_some (net : NetFS) (i : String) (ds : List String)
    (acc : List (String × AerCounters)) (c : PciDeviceAerCounters)
    (hstat : net.statPath (netIfaceDeviceDir i) = .okStat)
    (hp : parseAerCounters (net.dirAt (netIfaceDeviceDir i)) = .ok (some c)) :
    netAerLoop net (i :: ds) acc = netAerLoop net ds (acc ++ [(i, ⟨c, i⟩)]) := by
  rw [netAerLoop, hstat, hp]

theorem netAerLoop_fail (net : NetFS) :
    ∀ (ds : List String) (acc : List (String × AerCounters)) (iface : String),
      iface ∈ ds →
      net.statPath (netIfaceDeviceDir iface) = .okStat →
      isFailure (parseAerCounters (net.dirAt (netIfaceDeviceDir iface))) = true →
      isFailure (netAerLoop net ds acc) = true := by
  intro ds
  induction ds with
  | nil => intro acc iface h; simp at h
  | cons i ds ih =>
    intro acc iface hmem hstat hfail
    cases hs : net.statPath (netIfaceDeviceDir i) with
    | notExist =>
      have hne : iface ≠ i := by
        intro he
        rw [he, hs] at hstat
        cases hstat
      rw [netAerLoop_cons_notExist net i ds acc hs]
      rcases List.mem_cons.mp hmem with he | he
      · exact absurd he hne
      · exact ih acc iface he hstat hfail
    | statFailed => rw [netAerLoop_cons_statFailed net i ds acc hs]; rfl
    | okStat =>
      cases hp : parseAerCounters (net.dirAt (netIfaceDeviceDir i)) with
      | error e => rw [netAerLoop_cons_err net i ds acc e hs hp]; rfl
      | ok o =>
        have hne : iface ≠ i := by
          intro he
          rw [he, hp] at hfail
          cases hfail
        rcases List.mem_cons.mp hmem with he | he
        · exact absurd he hne
        · cases o with
          | none =>
            rw [netAerLoop_cons_ok_none net i ds acc hs hp]
            exact ih acc iface he hstat hfail
          | some c =>
            rw [netAerLoop_cons_ok_some net i ds acc c hs hp]
            exact ih _ iface he hstat hfail

theorem netAerLoop_mem (net : NetFS) :
    ∀ (ds : List String) (acc res : List (String × AerCounters)),
      netAerLoop net ds acc = .ok res → ∀ p ∈ res,
        p ∈ acc ∨ net.statPath (netIfaceDeviceDir p.1) ≠ .notExist := by
  intro ds
  induction ds with
  | nil =>
    intro acc res h p hp
    simp only [netAerLoop, Except.ok.injEq] at h
    subst h
    exact Or.inl hp
  | cons i ds ih =>
    intro acc res h p hp
    cases hs : net.statPath (netIfaceDeviceDir i) with
    | notExist =>
      rw [netAerLoop_cons_notExist net i ds acc hs] at h
      exact ih acc res h p hp
    | statFailed =>
      rw [netAerLoop_cons_statFailed net i ds acc hs] at h
      cases h
    | okStat =>
      cases hp2 : parseAerCounters (net.dirAt (netIfaceDeviceDir i)) with
      | error e =>
        rw [netAerLoop_cons_err net i ds acc e hs hp2] at h
        cases h
      | ok o =>
        cases o with
        | none =>
          rw [netAerLoop_cons_ok_none net i ds acc hs hp2] at h
          exact ih acc res h p hp
        | some c =>
          rw [netAerLoop_cons_ok_some net i ds acc c hs hp2] at h
          rcases ih _ res h p hp with hacc | hstat
          · rcases List.mem_append.mp hacc with h1 | h1
            · exact Or.inl h1
            · simp only [List.mem_singleton] at h1
              subst h1
              right
              rw [hs]
              intro hc
              cases hc
          · exact Or.inr hstat

theorem netAerLoop_skip (net : NetFS) :
    ∀ (ds : List String) (acc : List (String × AerCounters)),
      netAerLoop net ds acc =
        netAerLoop net (ds.filter fun i =>
          !(decide (net.statPath (netIfaceDeviceDir i) = .notExist))) acc := by
  intro ds
  induction ds with
  | nil => intro acc; rfl
  | cons i ds ih =>
    intro acc
    rw [List.filter_cons]
    cases hs : net.statPath (netIfaceDeviceDir i) with
    | notExist =>
      rw [if_neg (by simp [hs]), netAerLoop_cons_notExist net i ds acc hs]
      exact ih acc
    | statFailed =>
      rw [if_pos (by simp [hs])]
      rw [netAerLoop_cons_statFailed net i ds acc hs,
        netAerLoop_cons_statFailed net i _ acc hs]
    | okStat =>
      rw [if_pos (by simp [hs])]
      cases hp : parseAerCounters (net.dirAt (netIfaceDeviceDir i)) with
      | error e =>
        rw [netAerLoop_cons_err net i ds acc e hs hp,
          netAerLoop_cons_err net i _ acc e hs hp]
      | ok o =>
        cases o with
        | none =>
          rw [netAerLoop_cons_ok_none net i ds acc hs hp,
            netAerLoop_cons_ok_none net i _ acc hs hp]
          exact ih acc
        | some c =>
          rw [netAerLoop_cons_ok_some net i ds acc c hs hp,
            netAerLoop_cons_ok_some net i _ acc c hs hp]
          exact ih _

/-- C9 (confirmed): the bridge validates through the NetClass collaborator
first — when the interface does not exist the single-interface call
returns an interface-not-found error, whatever the filesystem holds; the
bulk call processes exactly the enumerated interfaces whose `device`
directory exists (an interface whose directory does not exist is skipped
without failing and never appears in a successful result map), while any
other error during an existing interface's counter parse fails the whole
bulk call. -/
theorem net_c9_bridge_validation_and_skip :
    (∀ (net : NetFS) (iface : String), net.ifaceOk iface = false →
      net.AerCountersByIface iface = .error (.interfaceNotFound iface)) ∧
    (∀ (net : NetFS) (ds : List String) (acc : List (String × AerCounters)),
      netAerLoop net ds acc =
        netAerLoop net (ds.filter fun i =>
          !(decide (net.statPath (netIfaceDeviceDir i) = .notExist))) acc) ∧
    (∀ (net : NetFS) (m : List (String × AerCounters)) (iface : String),
      net.AerCounters = .ok m →
      net.statPath (netIfaceDeviceDir iface) = .notExist →
      ∀ c, (iface, c) ∉ m) ∧
    (∀ (net : NetFS) (ds : List String) (iface : String),
      net.devicesList = .ok ds → iface ∈ ds →
      net.statPath (netIfaceDeviceDir iface) = .okStat →
      isFailure (parseAerCounters (net.dirAt (netIfaceDeviceDir iface))) = true →
      isFailure net.AerCounters = true) := by
  refine ⟨?_, netAerLoop_skip, ?_, ?_⟩
  · intro net iface h
    unfold NetFS.AerCountersByIface
    rw [if_pos (by simp [h])]
  · intro net m iface hok hstat c hmem
    unfold NetFS.AerCounters at hok
    cases hds : net.devicesList with
    | error e => rw [hds] at hok; cases hok
    | ok ds =>
      rw [hds] at hok
      rcases netAerLoop_mem net ds [] m hok (iface, c) hmem with h | h
      · cases h
      · exact h hstat
  · intro net ds iface hds hmem hstat hfail
    unfold NetFS.AerCounters
    rw [hds]
    exact netAerLoop_fail net ds [] iface hmem hstat hfail

/-- C9, witness: a NetClass collaborator that knows no interfaces makes
the single-interface call fail with interface-not-found, independently of
the filesystem. -/
theorem net_c9_bridge_validation_and_skip_witness :
    ((⟨fun _ => false, .ok [], fun _ => .notFound,
        fun _ => .okStat⟩ : NetFS).ifaceOk "eth0" = false) ∧
    (⟨fun _ => false, .ok [], fun _ => .notFound,
        fun _ => .okStat⟩ : NetFS).AerCountersByIface "eth0" =
      .error (.interfaceNotFound "eth0") :=
  ⟨rfl,
   net_c9_bridge_validation_and_skip.1
     ⟨fun _ => false, .ok [], fun _ => .notFound, fun _ => .okStat⟩ "eth0" rfl⟩
